import Mathlib

/-!
Shallow embedding of the two core subsystems of `soundpad_app.py`
(the audio routing graph manager `AudioRouter`, the global hotkey
capture engine `GlobalHotkeyManager`, and the application-level
push-to-talk / hotkey-edit logic of `SoundpadApp`), together with
theorems settling the specification claims about them.

Python strings are modelled as Lean `String`; Python string primitives
(`strip`, `lower`, `upper`, `split`, substring `in`, truthiness) are
given explicit executable definitions below.  External effects
(`subprocess.run` of `pactl`, the Xlib backend) are modelled as
explicit world/oracle parameters threaded through the translated code.
-/

/-! ## Python string primitives -/

/-- Whitespace as stripped by Python `str.strip()` (ASCII subset). -/
def isPySpace (c : Char) : Bool :=
  c.toNat = 32 || c.toNat = 9 || c.toNat = 10 || c.toNat = 13 || c.toNat = 11 || c.toNat = 12

/-- Python `str.strip()`: drop leading and trailing whitespace. -/
def pstripL (l : List Char) : List Char :=
  ((l.dropWhile isPySpace).reverse.dropWhile isPySpace).reverse

/-- Python `str.strip()` on `String`. -/
def pstrip (s : String) : String := String.mk (pstripL s.data)

/-- Python `str.lower()` (ASCII letters; the chords in play are ASCII). -/
def pyLower (s : String) : String := String.mk (s.data.map Char.toLower)

/-- Python `str.upper()` (ASCII letters). -/
def pyUpper (s : String) : String := String.mk (s.data.map Char.toUpper)

/-- Python substring test `needle in hay`. -/
def substrB (needle hay : String) : Bool := decide (needle.data <:+: hay.data)

/-- Python `str.endswith`. -/
def endsWithB (suffix s : String) : Bool := decide (suffix.data <:+ s.data)

/-- Python `str.startswith`. -/
def startsWithB (pre s : String) : Bool := decide (pre.data <+: s.data)

/-- Python `a or b` on strings (empty string is falsy). -/
def strOr (a b : String) : String := if a = "" then b else a

/-- Python truthiness of an optional string: `None` and `""` are falsy. -/
def optTruthy : Option String → Bool
  | none => false
  | some s => !(s == "")

/-- Join a list of strings with a separator (Python `sep.join`). -/
def joinSep (sep : String) : List String → String
  | [] => ""
  | [t] => t
  | t :: ts => t ++ sep ++ joinSep sep ts

/-- Python `s.split(sep)` for a one-character separator. -/
def splitOnCh (c : Char) (s : String) : List String :=
  (s.data.splitOn c).map String.mk

/-- Python `str.splitlines()` restricted to `\n`-separated text (the only
line separator `pactl` emits). -/
def splitLines (s : String) : List String := splitOnCh '\n' s

/-- Everything after the first `:` of a line: Python `line.split(":", 1)[1]`
for a line that contains a colon. -/
def afterFirstColon (l : List Char) : List Char := (l.dropWhile (· ≠ ':')).drop 1

/-! ## Key chord codec (`GlobalHotkeyManager._hotkey_to_parts`) -/

/-- The parsed modifier set of a chord: the Python code accumulates the
normalized names `"control"`, `"alt"`, `"shift"`, `"super"` in a set,
modelled here as four flags. -/
structure Mods where
  control : Bool := false
  alt : Bool := false
  shift : Bool := false
  super : Bool := false
deriving DecidableEq, Repr

/-- One iteration of the modifier-normalization loop in
`GlobalHotkeyManager._hotkey_to_parts` (src/soundpad_app.py:86-97):
an unrecognized modifier token fails the whole parse. -/
def addMod (m : Mods) (tok : String) : Option Mods :=
  let lower := pyLower tok
  if lower = "ctrl" ∨ lower = "control" then some { m with control := true }
  else if lower = "alt" then some { m with alt := true }
  else if lower = "shift" then some { m with shift := true }
  else if lower = "super" ∨ lower = "win" ∨ lower = "mod4" then some { m with super := true }
  else none

/-- The modifier loop over `parts[:-1]`. -/
def addMods : Mods → List String → Option Mods
  | m, [] => some m
  | m, t :: ts =>
    match addMod m t with
    | none => none
    | some m' => addMods m' ts

/-- `GlobalHotkeyManager._hotkey_to_parts` (src/soundpad_app.py:77-98):
split on `+`, strip the tokens and drop empties, last token (lower-cased)
is the base key, the rest are modifiers. -/
def hotkey_to_parts (hotkey_text : String) : Option (Mods × String) :=
  let raw := pstrip hotkey_text
  if raw = "" then none
  else
    let parts := ((splitOnCh '+' raw).map pstrip).filter (fun p => p ≠ "")
    match parts.getLast? with
    | none => none
    | some last =>
      match addMods {} parts.dropLast with
      | none => none
      | some mods => some (mods, pyLower last)

/-- Modelled from the spec: the serialization direction of the
`KeyChordCodec` is not present in `src/` (the application displays the raw
chord text); the spec describes it as joining the modifiers in canonical
order with the base key using `+`.  Canonical order: ctrl, alt, shift,
super. -/
def serialize_chord (m : Mods) (key : String) : String :=
  joinSep "+"
    ((if m.control then ["Ctrl"] else []) ++
     (if m.alt then ["Alt"] else []) ++
     (if m.shift then ["Shift"] else []) ++
     (if m.super then ["Super"] else []) ++ [key])

/-- Modifier-token normalization of `SoundpadApp._hotkey_to_tk_sequence`
(src/soundpad_app.py:1188-1200). -/
def tkMod (tok : String) : Option String :=
  let lower := pyLower tok
  if lower = "ctrl" ∨ lower = "control" then some "Control"
  else if lower = "alt" then some "Alt"
  else if lower = "shift" then some "Shift"
  else if lower = "super" ∨ lower = "win" ∨ lower = "mod4" then some "Mod4"
  else none

/-- The modifier loop of `_hotkey_to_tk_sequence` over `parts[:-1]`. -/
def tkMods : List String → Option (List String)
  | [] => some []
  | t :: ts =>
    match tkMod t with
    | none => none
    | some m =>
      match tkMods ts with
      | none => none
      | some ms => some (m :: ms)

/-- `SoundpadApp._hotkey_to_tk_sequence` (src/soundpad_app.py:1180-1206):
the Tk-side chord validator/translator.  Returns `none` exactly when the
Python function returns `None`. -/
def hotkey_to_tk_sequence (hotkey_text : String) : Option String :=
  let raw := pstrip hotkey_text
  if raw = "" then none
  else
    let parts := ((splitOnCh '+' raw).map pstrip).filter (fun p => p ≠ "")
    match parts.getLast? with
    | none => none
    | some key_part =>
      match tkMods parts.dropLast with
      | none => none
      | some mods =>
        let key_name := if key_part.length = 1 then pyLower key_part else key_part
        some ("<" ++ joinSep "-" (mods ++ ["Key-" ++ key_name]) ++ ">")

/-! ## The pactl environment and `AudioRouter` -/

/-- The fixed virtual device names (src/soundpad_app.py:26-27). -/
def SINK_NAME : String := "soundpad_sink"

/-- The virtual source name (src/soundpad_app.py:27). -/
def SOURCE_NAME : String := "soundpad_mic"

/-- Exceptions that can cross the `subprocess.run` boundary: a missing
executable raises `FileNotFoundError`. -/
inductive PyExc where
  | fileNotFoundError
  | otherError
deriving DecidableEq, Repr

/-- A module-list row `(id, module-name, argument-string)`.  `pactl list
short modules` prints tab-separated columns; rows are modelled
structurally as the parsed triples (the Python loop drops lines with
fewer than three columns, so well-formed output is exactly a list of
triples). -/
abbrev Row := String × String × String

/-- The result of `subprocess.run(cmd, capture_output=True, text=True)`.
For list-style commands the tab-separated `stdout` is carried in parsed
form in `rows` (see `Row`); `stdout` carries the textual output used by
`load-module` (the new module id) and `pactl info`. -/
structure RunResult where
  returncode : Int
  stdout : String
  stderr : String
  rows : List Row
deriving DecidableEq, Repr

/-- The environment seen through `AudioRouter._run`
(src/soundpad_app.py:206-207): running a command vector yields either a
`RunResult` or a raised exception, and may advance the environment
state. -/
def PWorld (σ : Type) := σ → List String → Except PyExc RunResult × σ

/-- The instance state of `AudioRouter` (src/soundpad_app.py:199-204):
remembered module identifiers, `None` initially. -/
structure AudioRouter where
  sink_module_id : Option String := none
  source_module_id : Option String := none
  monitor_module_id : Option String := none
  mic_loop_module_id : Option String := none
deriving DecidableEq, Repr

/-- The row scan of `AudioRouter._module_id_by_name`
(src/soundpad_app.py:214-225): first row whose module name matches and
whose argument string contains the token (if a token is given). -/
def scanModules (module_name : String) (arg_token : Option String) : List Row → Option String
  | [] => none
  | (mod_id, mod_name, mod_args) :: rest =>
    if mod_name ≠ module_name then scanModules module_name arg_token rest
    else
      match arg_token with
      | none => some mod_id
      | some tok =>
        if substrB tok mod_args then some mod_id
        else scanModules module_name arg_token rest

/-- `AudioRouter._module_id_by_name` (src/soundpad_app.py:209-225). -/
def module_id_by_name (W : PWorld σ) (s : σ) (module_name : String) (arg_token : Option String) :
    Except PyExc (Option String) × σ :=
  match W s ["pactl", "list", "short", "modules"] with
  | (.error e, s') => (.error e, s')
  | (.ok result, s') =>
    if result.returncode ≠ 0 then (.ok none, s')
    else (.ok (scanModules module_name arg_token result.rows), s')

/-- The row scan of `AudioRouter._find_mic_loop_module`
(src/soundpad_app.py:322-331): first `module-loopback` row whose
arguments contain `sink=soundpad_sink` but not
`source=soundpad_sink.monitor`. -/
def scanMicLoop : List Row → Option String
  | [] => none
  | (mod_id, mod_name, mod_args) :: rest =>
    if mod_name ≠ "module-loopback" then scanMicLoop rest
    else if substrB ("sink=" ++ SINK_NAME) mod_args && !(substrB "source=soundpad_sink.monitor" mod_args)
    then some mod_id
    else scanMicLoop rest

/-- `AudioRouter._find_mic_loop_module` (src/soundpad_app.py:318-331). -/
def find_mic_loop_module (W : PWorld σ) (s : σ) : Except PyExc (Option String) × σ :=
  match W s ["pactl", "list", "short", "modules"] with
  | (.error e, s') => (.error e, s')
  | (.ok result, s') =>
    if result.returncode ≠ 0 then (.ok none, s')
    else (.ok (scanMicLoop result.rows), s')

/-- The virtual-source phase of `AudioRouter.ensure_virtual_mic`
(src/soundpad_app.py:242-257). -/
def ensure_virtual_mic_src (W : PWorld σ) (a : AudioRouter) (s : σ) :
    Except PyExc ((Bool × String) × AudioRouter) × σ :=
  match module_id_by_name W s "module-remap-source" (some ("source_name=" ++ SOURCE_NAME)) with
  | (.error e, s1) => (.error e, s1)
  | (.ok srcid, s1) =>
    let a1 := { a with source_module_id := srcid }
    if optTruthy a1.source_module_id then
      (.ok ((true, "Ready: sink=" ++ SINK_NAME ++ ", mic=" ++ SOURCE_NAME), a1), s1)
    else
      match W s1 ["pactl", "load-module", "module-remap-source",
          "master=" ++ SINK_NAME ++ ".monitor", "source_name=" ++ SOURCE_NAME,
          "source_properties=device.description=SoundpadMic"] with
      | (.error e, s2) => (.error e, s2)
      | (.ok source_result, s2) =>
        if source_result.returncode ≠ 0 then
          (.ok ((false, strOr (pstrip source_result.stderr) (pstrip source_result.stdout)), a1), s2)
        else
          (.ok ((true, "Ready: sink=" ++ SINK_NAME ++ ", mic=" ++ SOURCE_NAME),
            { a1 with source_module_id := some (pstrip source_result.stdout) }), s2)

/-- `AudioRouter.ensure_virtual_mic` (src/soundpad_app.py:227-257):
discover the virtual sink, load it if missing, then the same for the
virtual source. -/
def ensure_virtual_mic (W : PWorld σ) (a : AudioRouter) (s : σ) :
    Except PyExc ((Bool × String) × AudioRouter) × σ :=
  match module_id_by_name W s "module-null-sink" (some ("sink_name=" ++ SINK_NAME)) with
  | (.error e, s1) => (.error e, s1)
  | (.ok sid, s1) =>
    let a1 := { a with sink_module_id := sid }
    if optTruthy a1.sink_module_id then ensure_virtual_mic_src W a1 s1
    else
      match W s1 ["pactl", "load-module", "module-null-sink", "sink_name=" ++ SINK_NAME,
          "sink_properties=device.description=SoundpadSink"] with
      | (.error e, s2) => (.error e, s2)
      | (.ok sink_result, s2) =>
        if sink_result.returncode ≠ 0 then
          (.ok ((false, strOr (pstrip sink_result.stderr) (pstrip sink_result.stdout)), a1), s2)
        else ensure_virtual_mic_src W { a1 with sink_module_id := some (pstrip sink_result.stdout) } s2

/-- `AudioRouter.ensure_local_monitor` (src/soundpad_app.py:259-276). -/
def ensure_local_monitor (W : PWorld σ) (a : AudioRouter) (s : σ) :
    Except PyExc ((Bool × String) × AudioRouter) × σ :=
  match module_id_by_name W s "module-loopback" (some ("source=" ++ SINK_NAME ++ ".monitor")) with
  | (.error e, s1) => (.error e, s1)
  | (.ok mid, s1) =>
    let a1 := { a with monitor_module_id := mid }
    if optTruthy a1.monitor_module_id then (.ok ((true, "Local monitor ready"), a1), s1)
    else
      match W s1 ["pactl", "load-module", "module-loopback",
          "source=" ++ SINK_NAME ++ ".monitor", "sink=@DEFAULT_SINK@", "latency_msec=30"] with
      | (.error e, s2) => (.error e, s2)
      | (.ok monitor_result, s2) =>
        if monitor_result.returncode ≠ 0 then
          (.ok ((false, strOr (pstrip monitor_result.stderr) (pstrip monitor_result.stdout)), a1), s2)
        else
          (.ok ((true, "Local monitor enabled"),
            { a1 with monitor_module_id := some (pstrip monitor_result.stdout) }), s2)

/-- `AudioRouter.unload_monitor` (src/soundpad_app.py:278-285). -/
def unload_monitor (W : PWorld σ) (a : AudioRouter) (s : σ) :
    Except PyExc ((Bool × String) × AudioRouter) × σ :=
  if !(optTruthy a.monitor_module_id) then
    (.ok ((true, "Speaker monitor already disabled"), a), s)
  else
    match W s ["pactl", "unload-module", a.monitor_module_id.getD ""] with
    | (.error e, s1) => (.error e, s1)
    | (.ok unload_result, s1) =>
      if unload_result.returncode ≠ 0 then
        (.ok ((false, strOr (pstrip unload_result.stderr) (pstrip unload_result.stdout)), a), s1)
      else (.ok ((true, "Speaker monitor muted"), { a with monitor_module_id := none }), s1)

/-- `AudioRouter.set_mic_mute` (src/soundpad_app.py:287-292). -/
def set_mic_mute (W : PWorld σ) (a : AudioRouter) (s : σ) (muted : Bool) :
    Except PyExc ((Bool × String) × AudioRouter) × σ :=
  let mute_value := if muted then "1" else "0"
  match W s ["pactl", "set-source-mute", SOURCE_NAME, mute_value] with
  | (.error e, s1) => (.error e, s1)
  | (.ok result, s1) =>
    if result.returncode ≠ 0 then
      (.ok ((false, strOr (pstrip result.stderr) (pstrip result.stdout)), a), s1)
    else (.ok ((true, if muted then "Mic muted" else "Mic unmuted"), a), s1)

/-- The row filter of `AudioRouter.list_input_sources`
(src/soundpad_app.py:299-307): drop the virtual mic and monitor
pseudo-sources.  Source rows are `(index, name, rest)`; the name is
column 1. -/
def filterSources : List Row → List String
  | [] => []
  | (_, name, _) :: rest =>
    let source_name := pstrip name
    if source_name = SOURCE_NAME || endsWithB ".monitor" source_name then filterSources rest
    else source_name :: filterSources rest

/-- `AudioRouter.list_input_sources` (src/soundpad_app.py:294-307). -/
def list_input_sources (W : PWorld σ) (s : σ) : Except PyExc (List String) × σ :=
  match W s ["pactl", "list", "short", "sources"] with
  | (.error e, s1) => (.error e, s1)
  | (.ok result, s1) =>
    if result.returncode ≠ 0 then (.ok [], s1)
    else (.ok (filterSources result.rows), s1)

/-- The line scan of `AudioRouter.get_default_source`
(src/soundpad_app.py:313-316). -/
def scanDefaultSource : List String → String
  | [] => ""
  | line :: rest =>
    if startsWithB "Default Source:" line then pstrip (String.mk (afterFirstColon line.data))
    else scanDefaultSource rest

/-- `AudioRouter.get_default_source` (src/soundpad_app.py:309-316). -/
def get_default_source (W : PWorld σ) (s : σ) : Except PyExc String × σ :=
  match W s ["pactl", "info"] with
  | (.error e, s1) => (.error e, s1)
  | (.ok result, s1) =>
    if result.returncode ≠ 0 then (.ok "", s1)
    else (.ok (scanDefaultSource (splitLines result.stdout)), s1)

/-- The load phase of `AudioRouter.connect_input_source_to_soundpad`
(src/soundpad_app.py:341-353). -/
def connect_load_phase (W : PWorld σ) (a : AudioRouter) (s : σ) (source_name : String) :
    Except PyExc ((Bool × String) × AudioRouter) × σ :=
  match W s ["pactl", "load-module", "module-loopback",
      "source=" ++ source_name, "sink=" ++ SINK_NAME, "latency_msec=20"] with
  | (.error e, s1) => (.error e, s1)
  | (.ok result, s1) =>
    if result.returncode ≠ 0 then
      (.ok ((false, strOr (pstrip result.stderr) (pstrip result.stdout)), a), s1)
    else
      (.ok ((true, "Mic source connected: " ++ source_name),
        { a with mic_loop_module_id := some (pstrip result.stdout) }), s1)

/-- `AudioRouter.connect_input_source_to_soundpad`
(src/soundpad_app.py:333-353): re-discover an existing mic-passthrough
loopback, unload it first (aborting on failure), then load the new
loopback. -/
def connect_input_source_to_soundpad (W : PWorld σ) (a : AudioRouter) (s : σ) (source_name : String) :
    Except PyExc ((Bool × String) × AudioRouter) × σ :=
  match find_mic_loop_module W s with
  | (.error e, s1) => (.error e, s1)
  | (.ok current, s1) =>
    match current with
    | none => connect_load_phase W a s1 source_name
    | some cid =>
      if cid = "" then connect_load_phase W a s1 source_name
      else
        match W s1 ["pactl", "unload-module", cid] with
        | (.error e, s2) => (.error e, s2)
        | (.ok unload, s2) =>
          if unload.returncode ≠ 0 then
            (.ok ((false, strOr (pstrip unload.stderr) (pstrip unload.stdout)), a), s2)
          else connect_load_phase W { a with mic_loop_module_id := none } s2 source_name

/-- `AudioRouter.disconnect_input_source_from_soundpad`
(src/soundpad_app.py:355-363). -/
def disconnect_input_source_from_soundpad (W : PWorld σ) (a : AudioRouter) (s : σ) :
    Except PyExc ((Bool × String) × AudioRouter) × σ :=
  match find_mic_loop_module W s with
  | (.error e, s1) => (.error e, s1)
  | (.ok mid, s1) =>
    match mid with
    | none => (.ok ((true, "Mic source already disconnected"), a), s1)
    | some m =>
      if m = "" then (.ok ((true, "Mic source already disconnected"), a), s1)
      else
        match W s1 ["pactl", "unload-module", m] with
        | (.error e, s2) => (.error e, s2)
        | (.ok result, s2) =>
          if result.returncode ≠ 0 then
            (.ok ((false, strOr (pstrip result.stderr) (pstrip result.stdout)), a), s2)
          else (.ok ((true, "Mic source disconnected"), { a with mic_loop_module_id := none }), s2)

/-! ## A deterministic sound-server model -/

/-- Modelled environment: the live module list of the sound server plus a
fresh-id counter.  `pactl` assigns increasing numeric module ids. -/
structure Server where
  nextId : Nat
  rows : List Row
deriving DecidableEq, Repr

/-- Modelled environment: deterministic semantics of the `pactl` commands
`AudioRouter` issues against a healthy sound server — `list short
modules` reports the live rows, `load-module` appends a fresh row and
prints its id, `unload-module` removes the row with the given id
(failing when absent), anything else succeeds trivially. -/
def pactlRun (s : Server) (cmd : List String) : RunResult × Server :=
  match cmd with
  | ["pactl", "list", "short", "modules"] =>
    ({ returncode := 0, stdout := "", stderr := "", rows := s.rows }, s)
  | "pactl" :: "load-module" :: module_name :: args =>
    ({ returncode := 0, stdout := Nat.repr s.nextId, stderr := "", rows := [] },
      { nextId := s.nextId + 1,
        rows := s.rows ++ [(Nat.repr s.nextId, module_name, joinSep " " args)] })
  | ["pactl", "unload-module", mid] =>
    if s.rows.any (fun r => r.1 = mid) then
      ({ returncode := 0, stdout := "", stderr := "", rows := [] },
        { s with rows := s.rows.filter (fun r => r.1 ≠ mid) })
    else ({ returncode := 1, stdout := "", stderr := "Failure: No such entity", rows := [] }, s)
  | _ => ({ returncode := 0, stdout := "", stderr := "", rows := [] }, s)

/-- The deterministic server as a `PWorld` (never raises: `pactl` is on
`PATH`). -/
def pactlW : PWorld Server := fun s cmd =>
  let (r, s') := pactlRun s cmd
  (.ok r, s')

/-- The environment of a session where the `pactl` executable is absent
from `PATH`: every `subprocess.run(["pactl", ...])` raises
`FileNotFoundError` before doing anything. -/
def noPactlW : PWorld Unit := fun s _ => (.error .fileNotFoundError, s)

/-- Command-trace instrumentation: the same world, additionally recording
every command vector passed to `_run`, in order. -/
def logged (W : PWorld σ) : PWorld (σ × List (List String)) := fun p cmd =>
  match W p.1 cmd with
  | (r, s') => (r, (s', p.2 ++ [cmd]))

/-- A row is a mic-passthrough loopback exactly when
`_find_mic_loop_module`'s pattern accepts it. -/
def isMicLoopRow (r : Row) : Bool :=
  r.2.1 = "module-loopback" && substrB ("sink=" ++ SINK_NAME) r.2.2 &&
    !(substrB "source=soundpad_sink.monitor" r.2.2)

/-- The mic-passthrough loopback rows of a module list. -/
def micLoopRows (rows : List Row) : List Row := rows.filter isMicLoopRow

/-- The argument string of the loopback `connect_input_source_to_soundpad`
loads for a given source. -/
def newLoopArgs (source_name : String) : String :=
  joinSep " " ["source=" ++ source_name, "sink=" ++ SINK_NAME, "latency_msec=20"]

example : hotkey_to_parts "Shift+Alt+3" =
    some ({ shift := true, alt := true }, "3") := by decide

example : newLoopArgs "mic1" = "source=mic1 sink=soundpad_sink latency_msec=20" := by decide

/-! ## Basic lemmas -/

theorem toNat_ofNat_valid (n : Nat) (h : n.isValidChar) : (Char.ofNat n).toNat = n := by
  rw [Char.ofNat, dif_pos h]
  rfl

theorem char_toNat_inj {c d : Char} (h : c.toNat = d.toNat) : c = d :=
  Char.ext (UInt32.ext h)

theorem nat_toDigitsCore_ne_nil (b : Nat) :
    ∀ (fuel n : Nat) (acc : List Char), acc ≠ [] → Nat.toDigitsCore b fuel n acc ≠ [] := by
  intro fuel
  induction fuel with
  | zero => intro n acc h; exact h
  | succ f ih =>
    intro n acc h
    simp only [Nat.toDigitsCore]
    split
    · exact List.cons_ne_nil _ _
    · exact ih _ _ (List.cons_ne_nil _ _)

theorem nat_repr_ne_empty (n : Nat) : Nat.repr n ≠ "" := by
  unfold Nat.repr
  intro h
  have hd : Nat.toDigits 10 n = [] := by
    have := congrArg String.data h
    simpa [List.asString] using this
  revert hd
  unfold Nat.toDigits
  simp only [Nat.toDigitsCore]
  split
  · simp
  · intro hh
    exact nat_toDigitsCore_ne_nil 10 _ _ _ (List.cons_ne_nil _ _) hh

theorem scanMicLoop_eq_head (rows : List Row) :
    scanMicLoop rows = (micLoopRows rows).head?.map (fun r => r.1) := by
  induction rows with
  | nil => rfl
  | cons r rest ih =>
    obtain ⟨mod_id, mod_name, mod_args⟩ := r
    simp only [scanMicLoop, micLoopRows, List.filter_cons]
    by_cases h1 : mod_name = "module-loopback"
    · by_cases h2 : (substrB ("sink=" ++ SINK_NAME) mod_args &&
          !(substrB "source=soundpad_sink.monitor" mod_args)) = true
      · have hrow : isMicLoopRow (mod_id, mod_name, mod_args) = true := by
          simp only [isMicLoopRow]
          rw [h1]
          simpa using h2
        rw [if_neg (by simp [h1]), if_pos h2, hrow]
        simp
      · have hrow : isMicLoopRow (mod_id, mod_name, mod_args) = false := by
          simp only [isMicLoopRow]
          rw [h1]
          simpa using h2
        rw [if_neg (by simp [h1]), if_neg h2, hrow]
        simpa [micLoopRows] using ih
    · have hrow : isMicLoopRow (mod_id, mod_name, mod_args) = false := by
        simp [isMicLoopRow, h1]
      rw [if_pos (by simp [h1]), hrow]
      simpa [micLoopRows] using ih

theorem micLoopRows_append (xs ys : List Row) :
    micLoopRows (xs ++ ys) = micLoopRows xs ++ micLoopRows ys := by
  simp [micLoopRows]

theorem micLoopRows_filter (p : Row → Bool) (xs : List Row) :
    micLoopRows (xs.filter p) = (micLoopRows xs).filter p := by
  simp only [micLoopRows, List.filter_filter]
  congr 1
  funext r
  exact Bool.and_comm _ _

theorem substrB_sink_newLoopArgs (X : String) :
    substrB ("sink=" ++ SINK_NAME) (newLoopArgs X) = true := by
  apply decide_eq_true
  refine ⟨("source=" ++ X ++ " ").data, (" " ++ "latency_msec=20").data, ?_⟩
  simp [newLoopArgs, joinSep, SINK_NAME]

theorem isMicLoopRow_new (i X : String) :
    isMicLoopRow (i, "module-loopback", newLoopArgs X) =
      !(substrB "source=soundpad_sink.monitor" (newLoopArgs X)) := by
  simp [isMicLoopRow, substrB_sink_newLoopArgs]

/-- The command vector of module-list discovery. -/
def listModulesCmd : List String := ["pactl", "list", "short", "modules"]

/-- The load command `connect_input_source_to_soundpad` issues for a
source. -/
def loadLoopCmd (X : String) : List String :=
  ["pactl", "load-module", "module-loopback", "source=" ++ X, "sink=" ++ SINK_NAME,
    "latency_msec=20"]

/-- The command trace of one successful connect call: discovery first,
then — when a mic-passthrough loopback was discovered — its unload, and
only then the load of the new loopback. -/
def expectedConnectTrace (s : Server) (X : String) : List (List String) :=
  [listModulesCmd] ++
    (match scanMicLoop s.rows with
     | none => []
     | some i => [["pactl", "unload-module", i]]) ++ [loadLoopCmd X]

theorem connect_step (s : Server) (log : List (List String)) (a : AudioRouter) (X : String)
    (h : micLoopRows s.rows = [] ∨ ∃ r, micLoopRows s.rows = [r] ∧ r.1 ≠ "") :
    ∃ a' rows',
      connect_input_source_to_soundpad (logged pactlW) a (s, log) X =
        (.ok ((true, "Mic source connected: " ++ X), a'),
          ({ nextId := s.nextId + 1, rows := rows' }, log ++ expectedConnectTrace s X)) ∧
      micLoopRows rows' =
        (if isMicLoopRow (Nat.repr s.nextId, "module-loopback", newLoopArgs X) = true
         then [(Nat.repr s.nextId, "module-loopback", newLoopArgs X)] else []) := by
  rcases h with h | ⟨r, hr, hne⟩
  · have hscan : scanMicLoop s.rows = none := by
      rw [scanMicLoop_eq_head, h]
      rfl
    refine ⟨{ a with mic_loop_module_id := some (pstrip (Nat.repr s.nextId)) },
      s.rows ++ [(Nat.repr s.nextId, "module-loopback", newLoopArgs X)], ?_, ?_⟩
    · simp only [connect_input_source_to_soundpad, find_mic_loop_module, logged, pactlW,
        pactlRun, connect_load_phase, expectedConnectTrace, hscan, listModulesCmd, loadLoopCmd,
        newLoopArgs, joinSep]
      simp
    · rw [micLoopRows_append, h]
      simp [micLoopRows, List.filter_cons]
  · have hscan : scanMicLoop s.rows = some r.1 := by
      rw [scanMicLoop_eq_head, hr]
      rfl
    have hmem : r ∈ s.rows := by
      have h1 : r ∈ micLoopRows s.rows := by
        rw [hr]
        exact List.mem_singleton_self r
      simp only [micLoopRows] at h1
      exact List.mem_of_mem_filter h1
    have hany : s.rows.any (fun q => q.1 = r.1) = true := by
      rw [List.any_eq_true]
      exact ⟨r, hmem, by simp⟩
    refine ⟨{ a with mic_loop_module_id := some (pstrip (Nat.repr s.nextId)) },
      s.rows.filter (fun q => q.1 ≠ r.1) ++ [(Nat.repr s.nextId, "module-loopback", newLoopArgs X)],
      ?_, ?_⟩
    · simp only [connect_input_source_to_soundpad, find_mic_loop_module, logged, pactlW,
        pactlRun, connect_load_phase, expectedConnectTrace, hscan, listModulesCmd, loadLoopCmd,
        newLoopArgs, joinSep, hany]
      simp [hne, hany]
    · rw [micLoopRows_append, micLoopRows_filter, hr]
      simp [micLoopRows, List.filter_cons]

/-- C1 (amended): starting from a server state with no mic-passthrough
loopback, three successive `connect_input_source_to_soundpad` calls for
`A`, `B`, `C` all succeed, each call's command trace unloads any
discovered mic-passthrough loopback strictly before loading the new one,
and afterwards exactly one mic-passthrough loopback exists, whose
argument string carries `source=C` — provided the argument string of the
final loopback does not itself contain `source=soundpad_sink.monitor`
(i.e. `C` is not the virtual sink's own monitor source, which the
discovery pattern deliberately ignores). -/
theorem connect_sequence_at_most_one
    (s0 : Server) (a0 : AudioRouter) (A B C : String)
    (h0 : micLoopRows s0.rows = [])
    (hC : substrB "source=soundpad_sink.monitor" (newLoopArgs C) = false) :
    ∃ (a1 a2 a3 : AudioRouter) (s1 s2 s3 : Server),
      connect_input_source_to_soundpad (logged pactlW) a0 (s0, []) A =
        (.ok ((true, "Mic source connected: " ++ A), a1), (s1, expectedConnectTrace s0 A)) ∧
      connect_input_source_to_soundpad (logged pactlW) a1 (s1, []) B =
        (.ok ((true, "Mic source connected: " ++ B), a2), (s2, expectedConnectTrace s1 B)) ∧
      connect_input_source_to_soundpad (logged pactlW) a2 (s2, []) C =
        (.ok ((true, "Mic source connected: " ++ C), a3), (s3, expectedConnectTrace s2 C)) ∧
      micLoopRows s3.rows = [(Nat.repr s2.nextId, "module-loopback", newLoopArgs C)] := by
  obtain ⟨a1, rows1, e1, m1⟩ := connect_step s0 [] a0 A (Or.inl h0)
  have pre1 : micLoopRows rows1 = [] ∨ ∃ r, micLoopRows rows1 = [r] ∧ r.1 ≠ "" := by
    rw [m1]
    by_cases hc : isMicLoopRow (Nat.repr s0.nextId, "module-loopback", newLoopArgs A) = true
    · rw [if_pos hc]
      exact Or.inr ⟨_, rfl, nat_repr_ne_empty _⟩
    · rw [if_neg hc]
      exact Or.inl rfl
  obtain ⟨a2, rows2, e2, m2⟩ :=
    connect_step { nextId := s0.nextId + 1, rows := rows1 } [] a1 B pre1
  have pre2 : micLoopRows rows2 = [] ∨ ∃ r, micLoopRows rows2 = [r] ∧ r.1 ≠ "" := by
    rw [m2]
    by_cases hc : isMicLoopRow (Nat.repr (s0.nextId + 1), "module-loopback", newLoopArgs B) = true
    · rw [if_pos hc]
      exact Or.inr ⟨_, rfl, nat_repr_ne_empty _⟩
    · rw [if_neg hc]
      exact Or.inl rfl
  obtain ⟨a3, rows3, e3, m3⟩ :=
    connect_step { nextId := s0.nextId + 1 + 1, rows := rows2 } [] a2 C pre2
  refine ⟨a1, a2, a3, _, _, _, by simpa using e1, by simpa using e2, by simpa using e3, ?_⟩
  rw [m3, if_pos]
  rw [isMicLoopRow_new, hC]
  rfl

/-- C1 counterexample: with the concrete successful call sequence
`connect("mic1")`, `connect("mic2")`, `connect("soundpad_sink.monitor")`
from an empty server, all three calls return success, yet afterwards no
mic-passthrough loopback exists at all (the final loopback's arguments
contain `source=soundpad_sink.monitor`, so the discovery pattern that
defines a mic-passthrough loopback rejects it), contradicting "exactly
one mic-passthrough loopback exists and its source argument is C". -/
theorem connect_sequence_counterexample :
    connect_input_source_to_soundpad (logged pactlW) {} ({ nextId := 0, rows := [] }, []) "mic1" =
      (.ok ((true, "Mic source connected: mic1"), { mic_loop_module_id := some "0" }),
        ({ nextId := 1, rows := [("0", "module-loopback", "source=mic1 sink=soundpad_sink latency_msec=20")] },
          [["pactl", "list", "short", "modules"],
           ["pactl", "load-module", "module-loopback", "source=mic1", "sink=soundpad_sink", "latency_msec=20"]])) ∧
    connect_input_source_to_soundpad (logged pactlW) { mic_loop_module_id := some "0" }
        ({ nextId := 1, rows := [("0", "module-loopback", "source=mic1 sink=soundpad_sink latency_msec=20")] }, []) "mic2" =
      (.ok ((true, "Mic source connected: mic2"), { mic_loop_module_id := some "1" }),
        ({ nextId := 2, rows := [("1", "module-loopback", "source=mic2 sink=soundpad_sink latency_msec=20")] },
          [["pactl", "list", "short", "modules"],
           ["pactl", "unload-module", "0"],
           ["pactl", "load-module", "module-loopback", "source=mic2", "sink=soundpad_sink", "latency_msec=20"]])) ∧
    connect_input_source_to_soundpad (logged pactlW) { mic_loop_module_id := some "1" }
        ({ nextId := 2, rows := [("1", "module-loopback", "source=mic2 sink=soundpad_sink latency_msec=20")] }, []) "soundpad_sink.monitor" =
      (.ok ((true, "Mic source connected: soundpad_sink.monitor"), { mic_loop_module_id := some "2" }),
        ({ nextId := 3, rows := [("2", "module-loopback", "source=soundpad_sink.monitor sink=soundpad_sink latency_msec=20")] },
          [["pactl", "list", "short", "modules"],
           ["pactl", "unload-module", "1"],
           ["pactl", "load-module", "module-loopback", "source=soundpad_sink.monitor", "sink=soundpad_sink", "latency_msec=20"]])) ∧
    micLoopRows [("2", "module-loopback", "source=soundpad_sink.monitor sink=soundpad_sink latency_msec=20")] = [] := by
  exact ⟨rfl, rfl, rfl, by decide⟩

/-- C1 witness: the amended theorem applied at a concrete clean server
and ordinary source names. -/
theorem connect_sequence_at_most_one_witness :
    micLoopRows ({ nextId := 0, rows := [] } : Server).rows = [] ∧
    substrB "source=soundpad_sink.monitor" (newLoopArgs "mic3") = false ∧
    ∃ (a1 a2 a3 : AudioRouter) (s1 s2 s3 : Server),
      connect_input_source_to_soundpad (logged pactlW) {} (({ nextId := 0, rows := [] } : Server), []) "mic1" =
        (.ok ((true, "Mic source connected: " ++ "mic1"), a1), (s1, expectedConnectTrace { nextId := 0, rows := [] } "mic1")) ∧
      connect_input_source_to_soundpad (logged pactlW) a1 (s1, []) "mic2" =
        (.ok ((true, "Mic source connected: " ++ "mic2"), a2), (s2, expectedConnectTrace s1 "mic2")) ∧
      connect_input_source_to_soundpad (logged pactlW) a2 (s2, []) "mic3" =
        (.ok ((true, "Mic source connected: " ++ "mic3"), a3), (s3, expectedConnectTrace s2 "mic3")) ∧
      micLoopRows s3.rows = [(Nat.repr s2.nextId, "module-loopback", newLoopArgs "mic3")] :=
  ⟨by decide, by decide,
    connect_sequence_at_most_one { nextId := 0, rows := [] } {} "mic1" "mic2" "mic3"
      (by decide) (by decide)⟩

/-! ## Lemmas for `ensure_virtual_mic` -/

theorem scanModules_eq_head (module_name tok : String) (rows : List Row) :
    scanModules module_name (some tok) rows =
      ((rows.filter (fun r => r.2.1 = module_name && substrB tok r.2.2)).head?).map
        (fun r => r.1) := by
  induction rows with
  | nil => rfl
  | cons r rest ih =>
    obtain ⟨mod_id, mod_name, mod_args⟩ := r
    simp only [scanModules, List.filter_cons]
    by_cases h1 : mod_name = module_name
    · by_cases h2 : substrB tok mod_args = true
      · rw [if_neg (by simp [h1]), if_pos h2, if_pos (by simp [h1, h2])]
        simp
      · rw [if_neg (by simp [h1]), if_neg h2, if_neg (by simp [h2])]
        exact ih
    · rw [if_pos (by simp [h1]), if_neg (by simp [h1])]
      exact ih

theorem scanModules_found {module_name tok : String} {rows : List Row}
    (h : ∃ r ∈ rows, (r.2.1 = module_name && substrB tok r.2.2) = true) :
    ∃ i, scanModules module_name (some tok) rows = some i ∧
      ∃ r ∈ rows, r.1 = i ∧ (r.2.1 = module_name && substrB tok r.2.2) = true := by
  rw [scanModules_eq_head]
  obtain ⟨r, hmem, hp⟩ := h
  have hne : rows.filter (fun q => q.2.1 = module_name && substrB tok q.2.2) ≠ [] := by
    intro hnil
    rw [List.filter_eq_nil_iff] at hnil
    exact hnil r hmem hp
  obtain ⟨r0, rest, hr0⟩ := List.exists_cons_of_ne_nil hne
  have hr0mem : r0 ∈ rows.filter (fun r => r.2.1 = module_name && substrB tok r.2.2) := by
    rw [hr0]
    exact List.mem_cons_self _ _
  refine ⟨r0.1, by rw [hr0]; rfl, r0, List.mem_of_mem_filter hr0mem, rfl,
    (List.mem_filter.mp hr0mem).2⟩

/-- The pattern `ensure_virtual_mic`'s sink discovery matches. -/
def isSinkRow (r : Row) : Bool :=
  r.2.1 = "module-null-sink" && substrB ("sink_name=" ++ SINK_NAME) r.2.2

/-- The pattern `ensure_virtual_mic`'s source discovery matches. -/
def isSrcRow (r : Row) : Bool :=
  r.2.1 = "module-remap-source" && substrB ("source_name=" ++ SOURCE_NAME) r.2.2

/-- The load command for the virtual sink. -/
def loadSinkCmd : List String :=
  ["pactl", "load-module", "module-null-sink", "sink_name=" ++ SINK_NAME,
    "sink_properties=device.description=SoundpadSink"]

/-- The load command for the virtual source. -/
def loadSrcCmd : List String :=
  ["pactl", "load-module", "module-remap-source", "master=" ++ SINK_NAME ++ ".monitor",
    "source_name=" ++ SOURCE_NAME, "source_properties=device.description=SoundpadMic"]


/-- The row the sink load appends under the deterministic server. -/
def sinkRowOf (n : Nat) : Row :=
  (Nat.repr n, "module-null-sink",
    joinSep " " ["sink_name=" ++ SINK_NAME, "sink_properties=device.description=SoundpadSink"])

/-- The row the source load appends under the deterministic server. -/
def srcRowOf (n : Nat) : Row :=
  (Nat.repr n, "module-remap-source",
    joinSep " " ["master=" ++ SINK_NAME ++ ".monitor", "source_name=" ++ SOURCE_NAME,
      "source_properties=device.description=SoundpadMic"])

theorem scanModules_some {module_name tok : String} {rows : List Row} {i : String}
    (h : scanModules module_name (some tok) rows = some i) :
    ∃ r ∈ rows, r.1 = i ∧ (r.2.1 = module_name && substrB tok r.2.2) = true := by
  rw [scanModules_eq_head] at h
  cases hh : (rows.filter (fun q => q.2.1 = module_name && substrB tok q.2.2)).head? with
  | none => rw [hh] at h; simp at h
  | some r0 =>
    rw [hh] at h
    simp only [Option.map_some', Option.some_inj] at h
    have hmemf := List.mem_of_mem_head? hh
    exact ⟨r0, List.mem_of_mem_filter hmemf, h, (List.mem_filter.mp hmemf).2⟩

theorem ensure_src_phase (s : Server) (log : List (List String)) (a : AudioRouter)
    (hWF : ∀ r ∈ s.rows, r.1 ≠ "") :
    ∃ a' s',
      (ensure_virtual_mic_src (logged pactlW) a (s, log) =
          (.ok ((true, "Ready: sink=" ++ SINK_NAME ++ ", mic=" ++ SOURCE_NAME), a'),
            (s', log ++ [listModulesCmd])) ∧
        s' = s ∧ ∃ r ∈ s.rows, isSrcRow r = true) ∨
      (ensure_virtual_mic_src (logged pactlW) a (s, log) =
          (.ok ((true, "Ready: sink=" ++ SINK_NAME ++ ", mic=" ++ SOURCE_NAME), a'),
            (s', log ++ [listModulesCmd, loadSrcCmd])) ∧
        s' = { nextId := s.nextId + 1, rows := s.rows ++ [srcRowOf s.nextId] }) := by
  cases hscan : scanModules "module-remap-source" (some ("source_name=" ++ SOURCE_NAME)) s.rows with
  | some i =>
    obtain ⟨r0, hmem, hid, hpred⟩ := scanModules_some hscan
    have hine : i ≠ "" := hid ▸ hWF r0 hmem
    refine ⟨{ a with source_module_id := some i }, s,
      Or.inl ⟨?_, rfl, r0, hmem, by simpa [isSrcRow] using hpred⟩⟩
    simp only [ensure_virtual_mic_src, module_id_by_name, logged, pactlW, pactlRun, hscan,
      listModulesCmd]
    simp [optTruthy, hine]
  | none =>
    refine ⟨{ a with source_module_id := some (pstrip (Nat.repr s.nextId)) }, _,
      Or.inr ⟨?_, rfl⟩⟩
    simp only [ensure_virtual_mic_src, module_id_by_name, logged, pactlW, pactlRun, hscan,
      listModulesCmd, loadSrcCmd, srcRowOf]
    simp [optTruthy]

theorem ensure_first_call (s : Server) (a : AudioRouter)
    (hWF : ∀ r ∈ s.rows, r.1 ≠ "") :
    ∃ a' s' l',
      ensure_virtual_mic (logged pactlW) a (s, []) =
        (.ok ((true, "Ready: sink=" ++ SINK_NAME ++ ", mic=" ++ SOURCE_NAME), a'), (s', l')) ∧
      (l' = [listModulesCmd, listModulesCmd] ∨
       l' = [listModulesCmd, loadSinkCmd, listModulesCmd] ∨
       l' = [listModulesCmd, listModulesCmd, loadSrcCmd] ∨
       l' = [listModulesCmd, loadSinkCmd, listModulesCmd, loadSrcCmd]) ∧
      (∀ r ∈ s'.rows, r.1 ≠ "") ∧
      (∃ r ∈ s'.rows, isSinkRow r = true) ∧
      (∃ r ∈ s'.rows, isSrcRow r = true) := by
  have hsrcrow : ∀ n : Nat, isSrcRow (srcRowOf n) = true := by
    intro n
    simp only [isSrcRow, srcRowOf, joinSep]
    decide
  have hsinkrow : ∀ n : Nat, isSinkRow (sinkRowOf n) = true := by
    intro n
    simp only [isSinkRow, sinkRowOf, joinSep]
    decide
  cases hscan : scanModules "module-null-sink" (some ("sink_name=" ++ SINK_NAME)) s.rows with
  | some i =>
    obtain ⟨rs, hrsmem, hrsid, hrspred⟩ := scanModules_some hscan
    have hine : i ≠ "" := hrsid ▸ hWF rs hrsmem
    obtain ⟨a2, s2, hsrc⟩ :=
      ensure_src_phase s [listModulesCmd] { a with sink_module_id := some i } hWF
    have hstep : ensure_virtual_mic (logged pactlW) a (s, []) =
        ensure_virtual_mic_src (logged pactlW) { a with sink_module_id := some i }
          (s, [listModulesCmd]) := by
      simp only [ensure_virtual_mic, module_id_by_name, logged, pactlW, pactlRun, hscan,
        listModulesCmd]
      simp [optTruthy, hine]
    rcases hsrc with ⟨he, hs2, hsrcex⟩ | ⟨he, hs2⟩
    · refine ⟨a2, s2, _, by rw [hstep]; simpa using he, Or.inl rfl, ?_, ?_, ?_⟩
      · rw [hs2]; exact hWF
      · rw [hs2]; exact ⟨rs, hrsmem, by simpa [isSinkRow] using hrspred⟩
      · rw [hs2]; exact hsrcex
    · refine ⟨a2, s2, _, by rw [hstep]; simpa using he, Or.inr (Or.inr (Or.inl rfl)), ?_, ?_, ?_⟩
      · rw [hs2]
        intro r hr
        rcases List.mem_append.mp hr with hr | hr
        · exact hWF r hr
        · rcases List.mem_singleton.mp hr with rfl
          exact nat_repr_ne_empty _
      · rw [hs2]
        exact ⟨rs, List.mem_append_left _ hrsmem, by simpa [isSinkRow] using hrspred⟩
      · rw [hs2]
        exact ⟨_, List.mem_append_right _ (List.mem_singleton_self _), hsrcrow _⟩
  | none =>
    have hWF1 : ∀ r ∈ s.rows ++ [sinkRowOf s.nextId], r.1 ≠ "" := by
      intro r hr
      rcases List.mem_append.mp hr with hr | hr
      · exact hWF r hr
      · rcases List.mem_singleton.mp hr with rfl
        exact nat_repr_ne_empty _
    obtain ⟨a2, s2, hsrc⟩ :=
      ensure_src_phase { nextId := s.nextId + 1, rows := s.rows ++ [sinkRowOf s.nextId] }
        [listModulesCmd, loadSinkCmd]
        { a with sink_module_id := some (pstrip (Nat.repr s.nextId)) } hWF1
    have hstep : ensure_virtual_mic (logged pactlW) a (s, []) =
        ensure_virtual_mic_src (logged pactlW)
          { a with sink_module_id := some (pstrip (Nat.repr s.nextId)) }
          ({ nextId := s.nextId + 1, rows := s.rows ++ [sinkRowOf s.nextId] },
            [listModulesCmd, loadSinkCmd]) := by
      simp only [ensure_virtual_mic, module_id_by_name, logged, pactlW, pactlRun, hscan,
        listModulesCmd, loadSinkCmd, sinkRowOf, joinSep]
      simp [optTruthy]
    rcases hsrc with ⟨he, hs2, hsrcex⟩ | ⟨he, hs2⟩
    · refine ⟨a2, s2, _, by rw [hstep]; simpa using he, Or.inr (Or.inl rfl), ?_, ?_, ?_⟩
      · rw [hs2]; exact hWF1
      · rw [hs2]
        exact ⟨_, List.mem_append_right _ (List.mem_singleton_self _), hsinkrow _⟩
      · rw [hs2]; exact hsrcex
    · refine ⟨a2, s2, _, by rw [hstep]; simpa using he, Or.inr (Or.inr (Or.inr rfl)), ?_, ?_, ?_⟩
      · rw [hs2]
        intro r hr
        rcases List.mem_append.mp hr with hr | hr
        · exact hWF1 r hr
        · rcases List.mem_singleton.mp hr with rfl
          exact nat_repr_ne_empty _
      · rw [hs2]
        refine ⟨_, List.mem_append_left _ (List.mem_append_right _ (List.mem_singleton_self _)), hsinkrow _⟩
      · rw [hs2]
        exact ⟨_, List.mem_append_right _ (List.mem_singleton_self _), hsrcrow _⟩

theorem ensure_second_call (s : Server) (log : List (List String)) (a : AudioRouter)
    (hWF : ∀ r ∈ s.rows, r.1 ≠ "")
    (hsink : ∃ r ∈ s.rows, isSinkRow r = true)
    (hsrc : ∃ r ∈ s.rows, isSrcRow r = true) :
    ∃ a', ensure_virtual_mic (logged pactlW) a (s, log) =
      (.ok ((true, "Ready: sink=" ++ SINK_NAME ++ ", mic=" ++ SOURCE_NAME), a'),
        (s, log ++ [listModulesCmd, listModulesCmd])) := by
  obtain ⟨i, hscan, _⟩ := @scanModules_found "module-null-sink"
    ("sink_name=" ++ SINK_NAME) s.rows (by
      obtain ⟨r, hmem, hp⟩ := hsink
      exact ⟨r, hmem, by simpa [isSinkRow] using hp⟩)
  obtain ⟨rs, hrsmem, hrsid, _⟩ := scanModules_some hscan
  have hine : i ≠ "" := hrsid ▸ hWF rs hrsmem
  obtain ⟨j, hscan2, _⟩ := @scanModules_found "module-remap-source"
    ("source_name=" ++ SOURCE_NAME) s.rows (by
      obtain ⟨r, hmem, hp⟩ := hsrc
      exact ⟨r, hmem, by simpa [isSrcRow] using hp⟩)
  obtain ⟨rq, hrqmem, hrqid, _⟩ := scanModules_some hscan2
  have hjne : j ≠ "" := hrqid ▸ hWF rq hrqmem
  refine ⟨{ a with sink_module_id := some i, source_module_id := some j }, ?_⟩
  simp only [ensure_virtual_mic, ensure_virtual_mic_src, module_id_by_name, logged, pactlW,
    pactlRun, hscan, hscan2, listModulesCmd]
  simp [optTruthy, hine, hjne, hscan2]

/-- C3: from any well-formed server state (module ids are nonempty, as
real `pactl` output guarantees), calling `ensure_virtual_mic` twice in a
row returns success both times; each call runs module-list discovery
before any load (every possible first-call trace opens with the list
command and each load is preceded by a discovery), and the second call —
by then the virtual sink and virtual source both exist in the live
module list — issues no `load-module` command at all and leaves the
server untouched. -/
theorem ensure_virtual_mic_idempotent (s0 : Server) (a0 : AudioRouter)
    (hWF : ∀ r ∈ s0.rows, r.1 ≠ "") :
    ∃ a1 a2 s1 l1,
      ensure_virtual_mic (logged pactlW) a0 (s0, []) =
        (.ok ((true, "Ready: sink=" ++ SINK_NAME ++ ", mic=" ++ SOURCE_NAME), a1), (s1, l1)) ∧
      (l1 = [listModulesCmd, listModulesCmd] ∨
       l1 = [listModulesCmd, loadSinkCmd, listModulesCmd] ∨
       l1 = [listModulesCmd, listModulesCmd, loadSrcCmd] ∨
       l1 = [listModulesCmd, loadSinkCmd, listModulesCmd, loadSrcCmd]) ∧
      (∃ r ∈ s1.rows, isSinkRow r = true) ∧ (∃ r ∈ s1.rows, isSrcRow r = true) ∧
      ensure_virtual_mic (logged pactlW) a1 (s1, []) =
        (.ok ((true, "Ready: sink=" ++ SINK_NAME ++ ", mic=" ++ SOURCE_NAME), a2),
          (s1, [listModulesCmd, listModulesCmd])) := by
  obtain ⟨a1, s1, l1, he1, hl1, hWF1, hsink1, hsrc1⟩ := ensure_first_call s0 a0 hWF
  obtain ⟨a2, he2⟩ := ensure_second_call s1 [] a1 hWF1 hsink1 hsrc1
  exact ⟨a1, a2, s1, l1, he1, hl1, hsink1, hsrc1, by simpa using he2⟩

/-- C3 witness: the idempotence theorem applied to the empty server. -/
theorem ensure_virtual_mic_idempotent_witness :
    (∀ r ∈ ({ nextId := 0, rows := [] } : Server).rows, r.1 ≠ "") ∧
    ∃ a1 a2 s1 l1,
      ensure_virtual_mic (logged pactlW) {} (({ nextId := 0, rows := [] } : Server), []) =
        (.ok ((true, "Ready: sink=" ++ SINK_NAME ++ ", mic=" ++ SOURCE_NAME), a1), (s1, l1)) ∧
      (l1 = [listModulesCmd, listModulesCmd] ∨
       l1 = [listModulesCmd, loadSinkCmd, listModulesCmd] ∨
       l1 = [listModulesCmd, listModulesCmd, loadSrcCmd] ∨
       l1 = [listModulesCmd, loadSinkCmd, listModulesCmd, loadSrcCmd]) ∧
      (∃ r ∈ s1.rows, isSinkRow r = true) ∧ (∃ r ∈ s1.rows, isSrcRow r = true) ∧
      ensure_virtual_mic (logged pactlW) a1 (s1, []) =
        (.ok ((true, "Ready: sink=" ++ SINK_NAME ++ ", mic=" ++ SOURCE_NAME), a2),
          (s1, [listModulesCmd, listModulesCmd])) :=
  ⟨by simp, ensure_virtual_mic_idempotent { nextId := 0, rows := [] } {} (by simp)⟩

/-- C8: when `connect_input_source_to_soundpad` discovers an existing
mic-passthrough loopback and the unload of that module exits non-zero,
the call returns failure carrying the unload's stderr (stdout when
stderr strips to empty), the router state is untouched, and the command
trace contains no `load-module` — no new loopback is created. -/
theorem connect_unload_failure_aborts
    {σ : Type} (W : PWorld σ) (s0 s1 s2 : σ) (a : AudioRouter) (name i : String)
    (r1 r2 : RunResult)
    (h1 : W s0 ["pactl", "list", "short", "modules"] = (.ok r1, s1))
    (hrc1 : r1.returncode = 0)
    (hscan : scanMicLoop r1.rows = some i)
    (hine : i ≠ "")
    (h2 : W s1 ["pactl", "unload-module", i] = (.ok r2, s2))
    (hrc2 : r2.returncode ≠ 0) :
    connect_input_source_to_soundpad (logged W) a ((s0, []) : σ × List (List String)) name =
      (.ok ((false, strOr (pstrip r2.stderr) (pstrip r2.stdout)), a),
        (s2, [["pactl", "list", "short", "modules"], ["pactl", "unload-module", i]])) := by
  simp only [connect_input_source_to_soundpad, find_mic_loop_module, logged]
  rw [h1]
  simp only [hrc1, if_neg (by simp : ¬ (0 : Int) ≠ 0), hscan]
  rw [if_neg hine]
  rw [h2]
  simp [hrc2]

/-- A world in which one mic-passthrough loopback is loaded but the
sound server refuses to unload it (with "boom" on stderr). -/
def failingUnloadW : PWorld Nat := fun n cmd =>
  match cmd with
  | ["pactl", "list", "short", "modules"] =>
    (.ok { returncode := 0, stdout := "", stderr := "",
           rows := [("7", "module-loopback", "source=mic1 sink=soundpad_sink latency_msec=20")] }, n)
  | ["pactl", "unload-module", _] =>
    (.ok { returncode := 1, stdout := "", stderr := "boom", rows := [] }, n)
  | _ => (.ok { returncode := 0, stdout := "", stderr := "", rows := [] }, n)

/-- C8 witness: the abort theorem applied to the concrete failing
world. -/
theorem connect_unload_failure_aborts_witness :
    failingUnloadW 0 ["pactl", "list", "short", "modules"] =
      (.ok { returncode := 0, stdout := "", stderr := "",
             rows := [("7", "module-loopback", "source=mic1 sink=soundpad_sink latency_msec=20")] }, 0) ∧
    scanMicLoop [("7", "module-loopback", "source=mic1 sink=soundpad_sink latency_msec=20")] =
      some "7" ∧
    failingUnloadW 0 ["pactl", "unload-module", "7"] =
      (.ok { returncode := 1, stdout := "", stderr := "boom", rows := [] }, 0) ∧
    connect_input_source_to_soundpad (logged failingUnloadW) {} ((0, []) : Nat × List (List String)) "mic2" =
      (.ok ((false, strOr (pstrip "boom") (pstrip "")), {}),
        (0, [["pactl", "list", "short", "modules"], ["pactl", "unload-module", "7"]])) :=
  ⟨rfl, by decide, rfl,
    connect_unload_failure_aborts failingUnloadW 0 0 0 {} "mic2" "7" _ _ rfl rfl (by decide)
      (by decide) rfl (by decide)⟩

/-! ## Lemmas for the never-raise boundary -/

theorem module_id_by_name_ok {σ : Type} (W : PWorld σ)
    (hW : ∀ s c, ∃ r s', W s c = (.ok r, s')) (s : σ) (n : String) (t : Option String) :
    ∃ v s', module_id_by_name W s n t = (.ok v, s') := by
  obtain ⟨r, s', h⟩ := hW s ["pactl", "list", "short", "modules"]
  simp only [module_id_by_name]
  simp only [h]
  split
  · exact ⟨_, _, rfl⟩
  · exact ⟨_, _, rfl⟩

theorem find_mic_loop_module_ok {σ : Type} (W : PWorld σ)
    (hW : ∀ s c, ∃ r s', W s c = (.ok r, s')) (s : σ) :
    ∃ v s', find_mic_loop_module W s = (.ok v, s') := by
  obtain ⟨r, s', h⟩ := hW s ["pactl", "list", "short", "modules"]
  simp only [find_mic_loop_module]
  simp only [h]
  split
  · exact ⟨_, _, rfl⟩
  · exact ⟨_, _, rfl⟩

theorem ensure_virtual_mic_src_ok {σ : Type} (W : PWorld σ)
    (hW : ∀ s c, ∃ r s', W s c = (.ok r, s')) (a : AudioRouter) (s : σ) :
    ∃ v s', ensure_virtual_mic_src W a s = (.ok v, s') := by
  obtain ⟨v1, s1, h1⟩ := module_id_by_name_ok W hW s "module-remap-source"
    (some ("source_name=" ++ SOURCE_NAME))
  simp only [ensure_virtual_mic_src]
  simp only [h1]
  split
  · exact ⟨_, _, rfl⟩
  · obtain ⟨r2, s2, h2⟩ := hW s1 ["pactl", "load-module", "module-remap-source",
      "master=" ++ SINK_NAME ++ ".monitor", "source_name=" ++ SOURCE_NAME,
      "source_properties=device.description=SoundpadMic"]
    simp only [h2]
    split
    · exact ⟨_, _, rfl⟩
    · exact ⟨_, _, rfl⟩

theorem ensure_virtual_mic_ok {σ : Type} (W : PWorld σ)
    (hW : ∀ s c, ∃ r s', W s c = (.ok r, s')) (a : AudioRouter) (s : σ) :
    ∃ v s', ensure_virtual_mic W a s = (.ok v, s') := by
  obtain ⟨v1, s1, h1⟩ := module_id_by_name_ok W hW s "module-null-sink"
    (some ("sink_name=" ++ SINK_NAME))
  simp only [ensure_virtual_mic]
  simp only [h1]
  split
  · exact ensure_virtual_mic_src_ok W hW _ _
  · obtain ⟨r2, s2, h2⟩ := hW s1 ["pactl", "load-module", "module-null-sink",
      "sink_name=" ++ SINK_NAME, "sink_properties=device.description=SoundpadSink"]
    simp only [h2]
    split
    · exact ⟨_, _, rfl⟩
    · exact ensure_virtual_mic_src_ok W hW _ _

theorem ensure_local_monitor_ok {σ : Type} (W : PWorld σ)
    (hW : ∀ s c, ∃ r s', W s c = (.ok r, s')) (a : AudioRouter) (s : σ) :
    ∃ v s', ensure_local_monitor W a s = (.ok v, s') := by
  obtain ⟨v1, s1, h1⟩ := module_id_by_name_ok W hW s "module-loopback"
    (some ("source=" ++ SINK_NAME ++ ".monitor"))
  simp only [ensure_local_monitor]
  simp only [h1]
  split
  · exact ⟨_, _, rfl⟩
  · obtain ⟨r2, s2, h2⟩ := hW s1 ["pactl", "load-module", "module-loopback",
      "source=" ++ SINK_NAME ++ ".monitor", "sink=@DEFAULT_SINK@", "latency_msec=30"]
    simp only [h2]
    split
    · exact ⟨_, _, rfl⟩
    · exact ⟨_, _, rfl⟩

theorem unload_monitor_ok {σ : Type} (W : PWorld σ)
    (hW : ∀ s c, ∃ r s', W s c = (.ok r, s')) (a : AudioRouter) (s : σ) :
    ∃ v s', unload_monitor W a s = (.ok v, s') := by
  simp only [unload_monitor]
  split
  · exact ⟨_, _, rfl⟩
  · obtain ⟨r1, s1, h1⟩ := hW s ["pactl", "unload-module", a.monitor_module_id.getD ""]
    simp only [h1]
    split
    · exact ⟨_, _, rfl⟩
    · exact ⟨_, _, rfl⟩

theorem set_mic_mute_ok {σ : Type} (W : PWorld σ)
    (hW : ∀ s c, ∃ r s', W s c = (.ok r, s')) (a : AudioRouter) (s : σ) (muted : Bool) :
    ∃ v s', set_mic_mute W a s muted = (.ok v, s') := by
  simp only [set_mic_mute]
  obtain ⟨r1, s1, h1⟩ := hW s ["pactl", "set-source-mute", SOURCE_NAME, if muted then "1" else "0"]
  simp only [h1]
  split
  · exact ⟨_, _, rfl⟩
  · exact ⟨_, _, rfl⟩

theorem list_input_sources_ok {σ : Type} (W : PWorld σ)
    (hW : ∀ s c, ∃ r s', W s c = (.ok r, s')) (s : σ) :
    ∃ v s', list_input_sources W s = (.ok v, s') := by
  simp only [list_input_sources]
  obtain ⟨r1, s1, h1⟩ := hW s ["pactl", "list", "short", "sources"]
  simp only [h1]
  split
  · exact ⟨_, _, rfl⟩
  · exact ⟨_, _, rfl⟩

theorem get_default_source_ok {σ : Type} (W : PWorld σ)
    (hW : ∀ s c, ∃ r s', W s c = (.ok r, s')) (s : σ) :
    ∃ v s', get_default_source W s = (.ok v, s') := by
  simp only [get_default_source]
  obtain ⟨r1, s1, h1⟩ := hW s ["pactl", "info"]
  simp only [h1]
  split
  · exact ⟨_, _, rfl⟩
  · exact ⟨_, _, rfl⟩

theorem connect_load_phase_ok {σ : Type} (W : PWorld σ)
    (hW : ∀ s c, ∃ r s', W s c = (.ok r, s')) (a : AudioRouter) (s : σ) (name : String) :
    ∃ v s', connect_load_phase W a s name = (.ok v, s') := by
  simp only [connect_load_phase]
  obtain ⟨r1, s1, h1⟩ := hW s ["pactl", "load-module", "module-loopback",
    "source=" ++ name, "sink=" ++ SINK_NAME, "latency_msec=20"]
  simp only [h1]
  split
  · exact ⟨_, _, rfl⟩
  · exact ⟨_, _, rfl⟩

theorem connect_input_source_to_soundpad_ok {σ : Type} (W : PWorld σ)
    (hW : ∀ s c, ∃ r s', W s c = (.ok r, s')) (a : AudioRouter) (s : σ) (name : String) :
    ∃ v s', connect_input_source_to_soundpad W a s name = (.ok v, s') := by
  obtain ⟨v1, s1, h1⟩ := find_mic_loop_module_ok W hW s
  simp only [connect_input_source_to_soundpad]
  simp only [h1]
  match v1 with
  | none => exact connect_load_phase_ok W hW _ _ _
  | some cid =>
    simp only
    split
    · exact connect_load_phase_ok W hW _ _ _
    · obtain ⟨r2, s2, h2⟩ := hW s1 ["pactl", "unload-module", cid]
      simp only [h2]
      split
      · exact ⟨_, _, rfl⟩
      · exact connect_load_phase_ok W hW _ _ _

theorem disconnect_input_source_from_soundpad_ok {σ : Type} (W : PWorld σ)
    (hW : ∀ s c, ∃ r s', W s c = (.ok r, s')) (a : AudioRouter) (s : σ) :
    ∃ v s', disconnect_input_source_from_soundpad W a s = (.ok v, s') := by
  obtain ⟨v1, s1, h1⟩ := find_mic_loop_module_ok W hW s
  simp only [disconnect_input_source_from_soundpad]
  simp only [h1]
  match v1 with
  | none => exact ⟨_, _, rfl⟩
  | some m =>
    simp only
    split
    · exact ⟨_, _, rfl⟩
    · obtain ⟨r2, s2, h2⟩ := hW s1 ["pactl", "unload-module", m]
      simp only [h2]
      split
      · exact ⟨_, _, rfl⟩
      · exact ⟨_, _, rfl⟩

/-- C4 (amended): whenever the environment's command runner returns a
result instead of raising — i.e. the `pactl` executable is present on
`PATH` — every public `AudioRouter` operation returns an explicit
outcome value (`.ok` with a success flag and message, or a list/string
result) and propagates no exception.  (When `pactl` is absent the
`subprocess.run` inside `_run` raises `FileNotFoundError`, which no
`AudioRouter` method catches — see the counterexample — the missing-tool
check lives in the application layer, not in `AudioRouter`.  The hotkey
engine's operations catch backend exceptions internally and return plain
values by construction; see `register` and `start` below.) -/
theorem router_never_raises_with_pactl {σ : Type} (W : PWorld σ)
    (hW : ∀ s c, ∃ r s', W s c = (.ok r, s'))
    (a : AudioRouter) (s : σ) (name : String) (muted : Bool) :
    (∃ v s', ensure_virtual_mic W a s = (.ok v, s')) ∧
    (∃ v s', ensure_local_monitor W a s = (.ok v, s')) ∧
    (∃ v s', unload_monitor W a s = (.ok v, s')) ∧
    (∃ v s', set_mic_mute W a s muted = (.ok v, s')) ∧
    (∃ v s', list_input_sources W s = (.ok v, s')) ∧
    (∃ v s', get_default_source W s = (.ok v, s')) ∧
    (∃ v s', connect_input_source_to_soundpad W a s name = (.ok v, s')) ∧
    (∃ v s', disconnect_input_source_from_soundpad W a s = (.ok v, s')) :=
  ⟨ensure_virtual_mic_ok W hW a s, ensure_local_monitor_ok W hW a s,
    unload_monitor_ok W hW a s, set_mic_mute_ok W hW a s muted,
    list_input_sources_ok W hW s, get_default_source_ok W hW s,
    connect_input_source_to_soundpad_ok W hW a s name,
    disconnect_input_source_from_soundpad_ok W hW a s⟩

/-- C4 counterexample: in the environment where `pactl` is absent from
`PATH`, the `AudioRouter` operations raise `FileNotFoundError` across the
public boundary (the uncaught `subprocess.run` exception propagates out
of `ensure_virtual_mic`, `connect_input_source_to_soundpad`, ...),
refuting "never raises for every environment state including pactl being
absent". -/
theorem router_raises_without_pactl :
    ensure_virtual_mic noPactlW {} () = (.error .fileNotFoundError, ()) ∧
    connect_input_source_to_soundpad noPactlW {} () "mic1" = (.error .fileNotFoundError, ()) ∧
    list_input_sources noPactlW () = (.error .fileNotFoundError, ()) ∧
    set_mic_mute noPactlW {} () true = (.error .fileNotFoundError, ()) :=
  ⟨rfl, rfl, rfl, rfl⟩

/-- C4 witness: the amended theorem applied to the deterministic healthy
server. -/
theorem router_never_raises_with_pactl_witness :
    (∀ (s : Server) c, ∃ r s', pactlW s c = (.ok r, s')) ∧
    ((∃ v s', ensure_virtual_mic pactlW {} { nextId := 0, rows := [] } = (.ok v, s')) ∧
     (∃ v s', ensure_local_monitor pactlW {} { nextId := 0, rows := [] } = (.ok v, s')) ∧
     (∃ v s', unload_monitor pactlW {} { nextId := 0, rows := [] } = (.ok v, s')) ∧
     (∃ v s', set_mic_mute pactlW {} { nextId := 0, rows := [] } true = (.ok v, s')) ∧
     (∃ v s', list_input_sources pactlW { nextId := 0, rows := [] } = (.ok v, s')) ∧
     (∃ v s', get_default_source pactlW { nextId := 0, rows := [] } = (.ok v, s')) ∧
     (∃ v s', connect_input_source_to_soundpad pactlW {} { nextId := 0, rows := [] } "mic1" = (.ok v, s')) ∧
     (∃ v s', disconnect_input_source_from_soundpad pactlW {} { nextId := 0, rows := [] } = (.ok v, s'))) :=
  ⟨fun s c => ⟨(pactlRun s c).1, (pactlRun s c).2, rfl⟩,
   router_never_raises_with_pactl pactlW
     (fun s c => ⟨(pactlRun s c).1, (pactlRun s c).2, rfl⟩) {} { nextId := 0, rows := [] }
     "mic1" true⟩

/-! ## The Xlib environment and `GlobalHotkeyManager` -/

/-- X11 `ShiftMask`. -/
def ShiftMask : Nat := 1

/-- X11 `LockMask` (caps lock). -/
def LockMask : Nat := 2

/-- X11 `ControlMask`. -/
def ControlMask : Nat := 4

/-- X11 `Mod1Mask` (alt). -/
def Mod1Mask : Nat := 8

/-- X11 `Mod2Mask` (num lock). -/
def Mod2Mask : Nat := 16

/-- X11 `Mod4Mask` (super). -/
def Mod4Mask : Nat := 64

/-- Outcome of one `grab_key` + `sync` attempt as seen from the `try`
block in `register` (src/soundpad_app.py:164-172): recorded success, a
`BadAccess` denial, or any other exception — both failure kinds are
caught per-variant and skip only that variant. -/
inductive GrabOutcome where
  | ok
  | badAccess
  | otherExc
deriving DecidableEq, Repr

/-- The Xlib backend oracle: keysym resolution (`0` = `NoSymbol`,
keycode `0` = unresolvable) and the per-(keycode, mask) grab outcome. -/
structure XWorld where
  string_to_keysym : String → Nat
  keysym_to_keycode : Nat → Nat
  grab : Nat → Nat → GrabOutcome

/-- The instance state of `GlobalHotkeyManager` (src/soundpad_app.py:38-46):
`display`/`root`/`thread` are opaque handles kept as present/absent, the
`bindings` dict is keyed by `(keycode, base modifier mask)`. -/
structure Engine (α : Type) where
  running : Bool := false
  display : Option Unit := none
  root : Option Unit := none
  thread : Option Unit := none
  bindings : Nat × Nat → Option α := fun _ => none
  registered : List (Nat × Nat) := []

/-- `GlobalHotkeyManager._modifier_mask` (src/soundpad_app.py:48-58). -/
def modifier_mask (mods : Mods) : Nat :=
  let mask := 0
  let mask := if mods.control then mask ||| ControlMask else mask
  let mask := if mods.alt then mask ||| Mod1Mask else mask
  let mask := if mods.shift then mask ||| ShiftMask else mask
  let mask := if mods.super then mask ||| Mod4Mask else mask
  mask

/-- `GlobalHotkeyManager._keysym_to_keycode` (src/soundpad_app.py:60-75):
translate characters that are not bare keysym names, upper-case
function keys, then resolve through the backend. -/
def keysym_to_keycode (X : XWorld) (key_name : String) : Option Nat :=
  let key_name :=
    if key_name = "\\" then "backslash"
    else if key_name = "/" then "slash"
    else if key_name = "-" then "minus"
    else if key_name = "=" then "equal"
    else if key_name = "`" then "grave"
    else key_name
  let key_name :=
    match key_name.data with
    | 'f' :: rest => if rest ≠ [] ∧ rest.all Char.isDigit then pyUpper key_name else key_name
    | _ => key_name
  let keysym := X.string_to_keysym key_name
  if keysym = 0 then none
  else
    let keycode := X.keysym_to_keycode keysym
    if keycode = 0 then none else some keycode

/-- A grab or ungrab attempt issued to the backend. -/
inductive GrabAction where
  | grabA (keycode mask : Nat)
  | ungrabA (keycode mask : Nat)
deriving DecidableEq, Repr

/-- The loop state of `register` (src/soundpad_app.py:148-176): the
conflict list, the fresh bindings dict, the recorded grants, and the
backend log of attempts. -/
structure RegState (α : Type) where
  conflicts : List String
  bindings : Nat × Nat → Option α
  registered : List (Nat × Nat)
  log : List GrabAction

/-- The four lock-modifier extras tried for each binding
(src/soundpad_app.py:162). -/
def lockVariants : List Nat := [0, LockMask, Mod2Mask, LockMask ||| Mod2Mask]

/-- One variant grab attempt of the `for extra in ...` loop
(src/soundpad_app.py:162-172): on success the grant is recorded and
`any_grab` is set; a `BadAccess` denial or any other exception skips
only this variant. -/
def grabVariant (X : XWorld) (keycode base_mask : Nat)
    (acc : Bool × List (Nat × Nat) × List GrabAction) (extra : Nat) :
    Bool × List (Nat × Nat) × List GrabAction :=
  let mask := base_mask ||| extra
  match X.grab keycode mask with
  | .ok => (true, acc.2.1 ++ [(keycode, mask)], acc.2.2 ++ [.grabA keycode mask])
  | .badAccess => (acc.1, acc.2.1, acc.2.2 ++ [.grabA keycode mask])
  | .otherExc => (acc.1, acc.2.1, acc.2.2 ++ [.grabA keycode mask])

/-- The body of `register`'s loop over `hotkey_actions`
(src/soundpad_app.py:151-176): unparseable chords are skipped silently,
an unresolvable base key records a conflict, otherwise the four variant
grabs run and the binding is entered iff at least one variant grabbed. -/
def register_one (X : XWorld) (st : RegState α) (p : α × String) : RegState α :=
  match hotkey_to_parts p.2 with
  | none => st
  | some (mods, key_name) =>
    match keysym_to_keycode X key_name with
    | none => { st with conflicts := st.conflicts ++ [p.2] }
    | some keycode =>
      let base_mask := modifier_mask mods
      let res := lockVariants.foldl (grabVariant X keycode base_mask)
        (false, st.registered, st.log)
      if res.1 then
        { st with
          bindings := fun q => if q = (keycode, base_mask) then some p.1 else st.bindings q,
          registered := res.2.1, log := res.2.2 }
      else
        { st with conflicts := st.conflicts ++ [p.2], registered := res.2.1, log := res.2.2 }

/-- The loop of `register` as a fold. -/
def register_loop (X : XWorld) (st : RegState α) (l : List (α × String)) : RegState α :=
  l.foldl (register_one X) st

/-- `GlobalHotkeyManager._unregister_all` (src/soundpad_app.py:131-143):
best-effort ungrab of every recorded grant (exceptions swallowed), then
clear the record. -/
def unregister_all (e : Engine α) : Engine α × List GrabAction :=
  if e.display = none ∨ e.root = none then (e, [])
  else ({ e with registered := [] }, e.registered.map (fun q => .ungrabA q.1 q.2))

/-- `GlobalHotkeyManager.register` (src/soundpad_app.py:145-181): while
not running (or without an open display) return `[]` at once; otherwise
release all grants, rebuild the bindings dict from scratch and return
the conflict list.  The third component is the backend grab/ungrab
log. -/
def register (X : XWorld) (e : Engine α) (hotkey_actions : List (α × String)) :
    List String × Engine α × List GrabAction :=
  if !e.running ∨ e.display = none ∨ e.root = none then ([], e, [])
  else
    let eu := unregister_all e
    let st0 : RegState α := { conflicts := [], bindings := fun _ => none,
                              registered := eu.1.registered, log := eu.2 }
    let st := register_loop X st0 hotkey_actions
    (st.conflicts, { eu.1 with bindings := st.bindings, registered := st.registered }, st.log)

/-- `GlobalHotkeyManager.start` (src/soundpad_app.py:100-114):
`xlibAvailable` is the module-level `XLIB_AVAILABLE` flag; `openOk`
models whether `xdisplay.Display()` / `.screen().root` succeeds.  Every
exception of the `try` block is caught (src/soundpad_app.py:110-114). -/
def start (xlibAvailable : Bool) (openOk : Bool) (e : Engine α) : Bool × Engine α :=
  if !xlibAvailable ∨ e.running then (false, e)
  else if openOk then
    (true, { e with display := some (), root := some (), running := true, thread := some () })
  else
    (false, { e with display := none, root := none, running := false })

/-- C10: calling `register` while the engine is not running, or with no
open display connection or root window, returns an empty conflict list
and changes nothing — the engine (bindings table and recorded-grab list
included) is returned unchanged and no grab or ungrab is attempted — so
the return value is indistinguishable from a fully successful
registration with no conflicts. -/
theorem register_not_running_noop {α : Type} (X : XWorld) (e : Engine α)
    (bs : List (α × String))
    (h : e.running = false ∨ e.display = none ∨ e.root = none) :
    register X e bs = ([], e, []) := by
  unfold register
  rcases h with h | h | h <;> simp [h]

/-- A concrete Xlib oracle for witnesses: only `"m"` resolves (keysym 5,
keycode 42); grabs succeed except under mask 8, which is denied with
`BadAccess`. -/
def sampleX : XWorld :=
  { string_to_keysym := fun s => if s = "m" then 5 else 0,
    keysym_to_keycode := fun k => if k = 5 then 42 else 0,
    grab := fun _ mask => if mask = 8 then .badAccess else .ok }

/-- C10 witness: `register` on a stopped engine with a nonempty binding
list returns `([], engine, no backend calls)`. -/
theorem register_not_running_noop_witness :
    (({} : Engine Nat).running = false ∨ ({} : Engine Nat).display = none ∨
      ({} : Engine Nat).root = none) ∧
    register sampleX ({} : Engine Nat) [(0, "Alt+1")] = ([], {}, []) :=
  ⟨Or.inl rfl, register_not_running_noop sampleX {} [(0, "Alt+1")] (Or.inl rfl)⟩

/-- C9: when the capture backend is unavailable — the X library is not
importable (`XLIB_AVAILABLE` false) or opening the display connection
raises — `start` returns `false` and leaves a stopped engine exactly as
it was: `running` false, no display or root connection, no registered
thread.  The embedding returns a plain pair because `start` catches
every exception of its `try` block. -/
theorem start_backend_unavailable {α : Type} (xlibAvailable openOk : Bool) (e : Engine α)
    (hun : xlibAvailable = false ∨ openOk = false)
    (hstopped : e.running = false ∧ e.display = none ∧ e.root = none ∧ e.thread = none) :
    start xlibAvailable openOk e = (false, e) := by
  obtain ⟨h1, h2, h3, h4⟩ := hstopped
  cases e with
  | mk running display root thread bindings registered =>
    simp only at h1 h2 h3 h4
    subst h1
    subst h2
    subst h3
    subst h4
    unfold start
    rcases hun with h | h <;> simp [h]

/-- C9 witness: `start` with the backend library missing, and with a
failing display connection, both return `false` on a fresh engine and
leave it untouched. -/
theorem start_backend_unavailable_witness :
    ((false = false ∨ true = false) ∧
      (({} : Engine Nat).running = false ∧ ({} : Engine Nat).display = none ∧
        ({} : Engine Nat).root = none ∧ ({} : Engine Nat).thread = none)) ∧
    start false true ({} : Engine Nat) = (false, {}) ∧
    start true false ({} : Engine Nat) = (false, {}) :=
  ⟨⟨Or.inl rfl, rfl, rfl, rfl, rfl⟩,
    start_backend_unavailable false true {} (Or.inl rfl) ⟨rfl, rfl, rfl, rfl⟩,
    start_backend_unavailable true false {} (Or.inr rfl) ⟨rfl, rfl, rfl, rfl⟩⟩

theorem grabVariants_spec (X : XWorld) (kc bm : Nat) (reg0 : List (Nat × Nat))
    (log0 : List GrabAction) :
    (lockVariants.foldl (grabVariant X kc bm) (false, reg0, log0)).2.2 =
      log0 ++ [.grabA kc bm, .grabA kc (bm ||| LockMask), .grabA kc (bm ||| Mod2Mask),
        .grabA kc (bm ||| (LockMask ||| Mod2Mask))] ∧
    ((lockVariants.foldl (grabVariant X kc bm) (false, reg0, log0)).1 = true ↔
      (X.grab kc bm = .ok ∨ X.grab kc (bm ||| LockMask) = .ok ∨
       X.grab kc (bm ||| Mod2Mask) = .ok ∨ X.grab kc (bm ||| (LockMask ||| Mod2Mask)) = .ok)) := by
  cases h1 : X.grab kc bm <;> cases h2 : X.grab kc (bm ||| LockMask) <;>
    cases h3 : X.grab kc (bm ||| Mod2Mask) <;>
    cases h4 : X.grab kc (bm ||| (LockMask ||| Mod2Mask)) <;>
    simp [lockVariants, grabVariant, h1, h2, h3, h4, List.append_assoc]

theorem register_loop_append (X : XWorld) (st : RegState α) (bs : List (α × String))
    (x : α × String) :
    register_loop X st (bs ++ [x]) = register_one X (register_loop X st bs) x := by
  simp [register_loop, List.foldl_append]

/-- The loop state `register` starts from after releasing the old
grants. -/
def regInit (e : Engine α) : RegState α :=
  { conflicts := [], bindings := fun _ => none,
    registered := (unregister_all e).1.registered, log := (unregister_all e).2 }

theorem register_run (X : XWorld) (e : Engine α) (l : List (α × String))
    (hrun : e.running = true) (hdisp : e.display = some ()) (hroot : e.root = some ()) :
    register X e l =
      ((register_loop X (regInit e) l).conflicts,
        { (unregister_all e).1 with
          bindings := (register_loop X (regInit e) l).bindings,
          registered := (register_loop X (regInit e) l).registered },
        (register_loop X (regInit e) l).log) := by
  unfold register regInit
  rw [if_neg (by simp [hrun, hdisp, hroot])]

/-- C5: in a `register` call on a running engine, the binding processed
last — whose chord parses to `(mods, key)` and whose base key resolves
to keycode `kc` — causes exactly four grab attempts on that same
keycode, under the masks base, base|Lock, base|Mod2 and base|Lock|Mod2,
appended after the attempts of the earlier bindings; if at least one
variant's grab succeeds (per-variant denials skip only that variant)
the binding is entered in the action table at `(kc, base mask)` and no
conflict is recorded for it; if none succeeds its chord is appended to
the returned conflict list and the action table is exactly what the
earlier bindings built. -/
theorem register_lock_variants {α : Type} (X : XWorld) (e : Engine α)
    (bs : List (α × String)) (a : α) (hk : String) (mods : Mods) (key : String) (kc : Nat)
    (hrun : e.running = true) (hdisp : e.display = some ()) (hroot : e.root = some ())
    (hparse : hotkey_to_parts hk = some (mods, key))
    (hkc : keysym_to_keycode X key = some kc) :
    (register X e (bs ++ [(a, hk)])).2.2 =
      (register X e bs).2.2 ++
        [.grabA kc (modifier_mask mods), .grabA kc (modifier_mask mods ||| LockMask),
         .grabA kc (modifier_mask mods ||| Mod2Mask),
         .grabA kc (modifier_mask mods ||| (LockMask ||| Mod2Mask))] ∧
    ((X.grab kc (modifier_mask mods) = .ok ∨
      X.grab kc (modifier_mask mods ||| LockMask) = .ok ∨
      X.grab kc (modifier_mask mods ||| Mod2Mask) = .ok ∨
      X.grab kc (modifier_mask mods ||| (LockMask ||| Mod2Mask)) = .ok) →
      (register X e (bs ++ [(a, hk)])).1 = (register X e bs).1 ∧
      (register X e (bs ++ [(a, hk)])).2.1.bindings (kc, modifier_mask mods) = some a ∧
      ∀ q, q ≠ (kc, modifier_mask mods) →
        (register X e (bs ++ [(a, hk)])).2.1.bindings q = (register X e bs).2.1.bindings q) ∧
    (¬ (X.grab kc (modifier_mask mods) = .ok ∨
        X.grab kc (modifier_mask mods ||| LockMask) = .ok ∨
        X.grab kc (modifier_mask mods ||| Mod2Mask) = .ok ∨
        X.grab kc (modifier_mask mods ||| (LockMask ||| Mod2Mask)) = .ok) →
      (register X e (bs ++ [(a, hk)])).1 = (register X e bs).1 ++ [hk] ∧
      (register X e (bs ++ [(a, hk)])).2.1.bindings = (register X e bs).2.1.bindings) := by
  rw [register_run X e (bs ++ [(a, hk)]) hrun hdisp hroot, register_run X e bs hrun hdisp hroot,
    register_loop_append]
  obtain ⟨hlog, hflag⟩ := grabVariants_spec X kc (modifier_mask mods)
    (register_loop X (regInit e) bs).registered (register_loop X (regInit e) bs).log
  by_cases hany : X.grab kc (modifier_mask mods) = .ok ∨
      X.grab kc (modifier_mask mods ||| LockMask) = .ok ∨
      X.grab kc (modifier_mask mods ||| Mod2Mask) = .ok ∨
      X.grab kc (modifier_mask mods ||| (LockMask ||| Mod2Mask)) = .ok
  · refine ⟨?_, fun _ => ⟨?_, ?_, ?_⟩, fun hc => absurd hany hc⟩
    · simp only [register_one, hparse, hkc, if_pos (hflag.mpr hany)]
      exact hlog
    · simp only [register_one, hparse, hkc, if_pos (hflag.mpr hany)]
    · simp only [register_one, hparse, hkc, if_pos (hflag.mpr hany)]
      simp
    · intro q hq
      simp only [register_one, hparse, hkc, if_pos (hflag.mpr hany)]
      simp [hq]
  · have hflag' : (lockVariants.foldl (grabVariant X kc (modifier_mask mods))
        (false, (register_loop X (regInit e) bs).registered,
          (register_loop X (regInit e) bs).log)).1 = false := by
      cases hv : (lockVariants.foldl (grabVariant X kc (modifier_mask mods))
          (false, (register_loop X (regInit e) bs).registered,
            (register_loop X (regInit e) bs).log)).1
      · rfl
      · exact absurd (hflag.mp hv) hany
    refine ⟨?_, fun hc => absurd hc hany, fun _ => ⟨?_, ?_⟩⟩
    · simp only [register_one, hparse, hkc, hflag', Bool.false_eq_true, if_false]
      exact hlog
    · simp only [register_one, hparse, hkc, hflag', Bool.false_eq_true, if_false]
    · simp only [register_one, hparse, hkc, hflag', Bool.false_eq_true, if_false]

/-- A running engine with an open display, used in witnesses. -/
def runningEngine : Engine Nat := { running := true, display := some (), root := some () }

/-- C5 witness: the lock-variant theorem applied to the concrete oracle
`sampleX`, a running engine, and the single binding `(7, "Ctrl+M")`. -/
theorem register_lock_variants_witness :
    (runningEngine.running = true ∧ runningEngine.display = some () ∧
      runningEngine.root = some () ∧
      hotkey_to_parts "Ctrl+M" = some ({ control := true }, "m") ∧
      keysym_to_keycode sampleX "m" = some 42) ∧
    ((register sampleX runningEngine ([] ++ [(7, "Ctrl+M")])).2.2 =
      (register sampleX runningEngine []).2.2 ++
        [.grabA 42 (modifier_mask { control := true }),
         .grabA 42 (modifier_mask { control := true } ||| LockMask),
         .grabA 42 (modifier_mask { control := true } ||| Mod2Mask),
         .grabA 42 (modifier_mask { control := true } ||| (LockMask ||| Mod2Mask))] ∧
    ((sampleX.grab 42 (modifier_mask { control := true }) = .ok ∨
      sampleX.grab 42 (modifier_mask { control := true } ||| LockMask) = .ok ∨
      sampleX.grab 42 (modifier_mask { control := true } ||| Mod2Mask) = .ok ∨
      sampleX.grab 42 (modifier_mask { control := true } ||| (LockMask ||| Mod2Mask)) = .ok) →
      (register sampleX runningEngine ([] ++ [(7, "Ctrl+M")])).1 =
        (register sampleX runningEngine []).1 ∧
      (register sampleX runningEngine ([] ++ [(7, "Ctrl+M")])).2.1.bindings
        (42, modifier_mask { control := true }) = some 7 ∧
      ∀ q, q ≠ (42, modifier_mask { control := true }) →
        (register sampleX runningEngine ([] ++ [(7, "Ctrl+M")])).2.1.bindings q =
          (register sampleX runningEngine []).2.1.bindings q) ∧
    (¬ (sampleX.grab 42 (modifier_mask { control := true }) = .ok ∨
        sampleX.grab 42 (modifier_mask { control := true } ||| LockMask) = .ok ∨
        sampleX.grab 42 (modifier_mask { control := true } ||| Mod2Mask) = .ok ∨
        sampleX.grab 42 (modifier_mask { control := true } ||| (LockMask ||| Mod2Mask)) = .ok) →
      (register sampleX runningEngine ([] ++ [(7, "Ctrl+M")])).1 =
        (register sampleX runningEngine []).1 ++ ["Ctrl+M"] ∧
      (register sampleX runningEngine ([] ++ [(7, "Ctrl+M")])).2.1.bindings =
        (register sampleX runningEngine []).2.1.bindings)) :=
  ⟨⟨rfl, rfl, rfl, by decide, by decide⟩,
    register_lock_variants sampleX runningEngine [] 7 "Ctrl+M" { control := true } "m" 42
      rfl rfl rfl (by decide) (by decide)⟩

/-! ## Application-level push-to-talk (`SoundpadApp`) -/

/-- The router operations the app invokes, as observed at the
`AudioRouter` public boundary. -/
inductive RouterOp where
  | connectOp (source_name : String)
  | disconnectOp
deriving DecidableEq, Repr

/-- The slice of `SoundpadApp` state driving push-to-talk
(src/soundpad_app.py:382-389): the enable flag, `ptt_pressed`, the
selected input source, the status line, the owned router.
`settings_saves` counts `_save_settings` calls (file persistence is
modelled as a counter); message boxes are modelled by the status text
they accompany. -/
structure App where
  push_to_talk_enabled : Bool
  ptt_pressed : Bool
  selected_input_source : String
  status_text : String
  router : AudioRouter
  settings_saves : Nat

/-- `SoundpadApp._ensure_selected_source_connected`
(src/soundpad_app.py:630-637): with no selected source fail fast
without touching the router; otherwise connect and save settings on
success.  The last component lists the router operations invoked. -/
def ensure_selected_source_connected (W : PWorld σ) (app : App) (s : σ) :
    Except PyExc (Bool × String) × App × σ × List RouterOp :=
  let source_name := pstrip app.selected_input_source
  if source_name = "" then (.ok (false, "No input source selected"), app, s, [])
  else
    match connect_input_source_to_soundpad W app.router s source_name with
    | (.error e, s') => (.error e, app, s', [.connectOp source_name])
    | (.ok (res, r'), s') =>
      let app1 := { app with router := r' }
      let app2 := if res.1 then { app1 with settings_saves := app1.settings_saves + 1 } else app1
      (.ok res, app2, s', [.connectOp source_name])

/-- `SoundpadApp._ptt_press` (src/soundpad_app.py:639-648): guard on the
enable flag and `ptt_pressed`, set `ptt_pressed` (the Talking state)
first, then attempt the connect; on failure the state is not reverted
and the failure is surfaced ("PTT failed"). -/
def ptt_press (W : PWorld σ) (app : App) (s : σ) :
    Except PyExc Unit × App × σ × List RouterOp :=
  if !app.push_to_talk_enabled || app.ptt_pressed then (.ok (), app, s, [])
  else
    let app0 := { app with ptt_pressed := true }
    match ensure_selected_source_connected W app0 s with
    | (.error e, app1, s', ops) => (.error e, app1, s', ops)
    | (.ok res, app1, s', ops) =>
      if res.1 then (.ok (), { app1 with status_text := "PTT active" }, s', ops)
      else (.ok (), { app1 with status_text := "PTT failed" }, s', ops)

/-- `SoundpadApp._ptt_release` (src/soundpad_app.py:650-659): ignore a
release while not Talking; otherwise leave the Talking state and always
attempt the disconnect, regardless of whether the press's connect
succeeded. -/
def ptt_release (W : PWorld σ) (app : App) (s : σ) :
    Except PyExc Unit × App × σ × List RouterOp :=
  if !app.ptt_pressed then (.ok (), app, s, [])
  else
    let app0 := { app with ptt_pressed := false }
    match disconnect_input_source_from_soundpad W app0.router s with
    | (.error e, s') => (.error e, app0, s', [.disconnectOp])
    | (.ok (res, r'), s') =>
      let app1 := { app0 with router := r' }
      if res.1 then (.ok (), { app1 with status_text := "PTT released" }, s', [.disconnectOp])
      else (.ok (), { app1 with status_text := "PTT release failed" }, s', [.disconnectOp])

theorem ptt_press_spec {σ : Type} (W : PWorld σ)
    (hW : ∀ s c, ∃ r s', W s c = (.ok r, s')) (app : App) (s : σ)
    (hEn : app.push_to_talk_enabled = true) (hIdle : app.ptt_pressed = false)
    (hSrc : pstrip app.selected_input_source ≠ "") :
    ∃ app1 s1, ptt_press W app s =
        (.ok (), app1, s1, [.connectOp (pstrip app.selected_input_source)]) ∧
      app1.ptt_pressed = true := by
  obtain ⟨v, s', hc⟩ := connect_input_source_to_soundpad_ok W hW app.router s
    (pstrip app.selected_input_source)
  obtain ⟨⟨ok1, msg1⟩, r1⟩ := v
  by_cases hok : ok1 = true
  · subst hok
    refine ⟨{ app with ptt_pressed := true, router := r1, status_text := "PTT active", settings_saves := app.settings_saves + 1 }, s', ?_, rfl⟩
    simp only [ptt_press, hEn, hIdle, ensure_selected_source_connected]
    rw [if_neg hSrc]
    simp only [hc]
    rfl
  · replace hok : ok1 = false := by simpa using hok
    subst hok
    refine ⟨{ app with ptt_pressed := true, router := r1, status_text := "PTT failed" }, s', ?_, rfl⟩
    simp only [ptt_press, hEn, hIdle, ensure_selected_source_connected]
    rw [if_neg hSrc]
    simp only [hc]
    rfl

theorem ptt_release_spec {σ : Type} (W : PWorld σ)
    (hW : ∀ s c, ∃ r s', W s c = (.ok r, s')) (app : App) (s : σ)
    (hPressed : app.ptt_pressed = true) :
    ∃ app2 s2, ptt_release W app s = (.ok (), app2, s2, [.disconnectOp]) ∧
      app2.ptt_pressed = false := by
  obtain ⟨v, s', hd⟩ := disconnect_input_source_from_soundpad_ok W hW app.router s
  obtain ⟨⟨ok1, msg1⟩, r1⟩ := v
  by_cases hok : ok1 = true
  · subst hok
    refine ⟨{ app with ptt_pressed := false, router := r1, status_text := "PTT released" }, s', ?_, rfl⟩
    simp only [ptt_release, hPressed]
    simp only [hd]
    rfl
  · replace hok : ok1 = false := by simpa using hok
    subst hok
    refine ⟨{ app with ptt_pressed := false, router := r1, status_text := "PTT release failed" }, s', ?_, rfl⟩
    simp only [ptt_release, hPressed]
    simp only [hd]
    rfl

/-- C2 (amended): for the event sequence [press, release] delivered with
push-to-talk enabled, state Idle, and a non-empty selected input source,
the router operations invoked are exactly `connect` on the press and
then `disconnect` on the release — never the reverse and never
disconnect alone; the press enters the Talking state before the connect
is attempted and does not revert it on failure (the theorem holds for
every non-raising environment, including ones where the connect fails),
so the release still attempts the disconnect.  (When the selected
source is empty the press invokes no router operation at all — see the
counterexample — hence the non-empty-source proviso.) -/
theorem ptt_press_release_ordering {σ : Type} (W : PWorld σ)
    (hW : ∀ s c, ∃ r s', W s c = (.ok r, s')) (app : App) (s : σ)
    (hEn : app.push_to_talk_enabled = true) (hIdle : app.ptt_pressed = false)
    (hSrc : pstrip app.selected_input_source ≠ "") :
    ∃ app1 s1 app2 s2,
      ptt_press W app s = (.ok (), app1, s1, [.connectOp (pstrip app.selected_input_source)]) ∧
      app1.ptt_pressed = true ∧
      ptt_release W app1 s1 = (.ok (), app2, s2, [.disconnectOp]) ∧
      app2.ptt_pressed = false := by
  obtain ⟨app1, s1, hp, hpressed⟩ := ptt_press_spec W hW app s hEn hIdle hSrc
  obtain ⟨app2, s2, hr, hidle2⟩ := ptt_release_spec W hW app1 s1 hpressed
  exact ⟨app1, s1, app2, s2, hp, hpressed, hr, hidle2⟩

/-- A PTT-enabled idle app with no input source selected. -/
def emptySourceApp : App :=
  { push_to_talk_enabled := true, ptt_pressed := false, selected_input_source := "",
    status_text := "", router := {}, settings_saves := 0 }

/-- C2 counterexample: with push-to-talk enabled, state Idle, and an
empty selected input source, the press invokes no `AudioRouter`
operation at all (it fails fast with "No input source selected", yet
still enters the Talking state), and the release then invokes
`disconnect` alone — so over the [press, release] sequence the observed
router call sequence is `[disconnect]`, not `[connect, disconnect]`,
refuting "never disconnect alone" as stated. -/
theorem ptt_empty_source_counterexample :
    ptt_press pactlW emptySourceApp { nextId := 0, rows := [] } =
      (.ok (), { emptySourceApp with ptt_pressed := true, status_text := "PTT failed" }, { nextId := 0, rows := [] }, []) ∧
    ptt_release pactlW { emptySourceApp with ptt_pressed := true, status_text := "PTT failed" } { nextId := 0, rows := [] } =
      (.ok (), { emptySourceApp with ptt_pressed := false, status_text := "PTT released" }, { nextId := 0, rows := [] }, [.disconnectOp]) :=
  ⟨rfl, rfl⟩

/-- A PTT-enabled idle app with the source `mic1` selected. -/
def micSourceApp : App :=
  { push_to_talk_enabled := true, ptt_pressed := false, selected_input_source := "mic1",
    status_text := "", router := {}, settings_saves := 0 }

/-- C2 witness: the ordering theorem applied to the deterministic
healthy server and a selected source. -/
theorem ptt_press_release_ordering_witness :
    (micSourceApp.push_to_talk_enabled = true ∧ micSourceApp.ptt_pressed = false ∧
      pstrip micSourceApp.selected_input_source ≠ "") ∧
    ∃ app1 s1 app2 s2,
      ptt_press pactlW micSourceApp { nextId := 0, rows := [] } =
        (.ok (), app1, s1, [.connectOp (pstrip micSourceApp.selected_input_source)]) ∧
      app1.ptt_pressed = true ∧
      ptt_release pactlW app1 s1 = (.ok (), app2, s2, [.disconnectOp]) ∧
      app2.ptt_pressed = false :=
  ⟨⟨rfl, rfl, by decide⟩,
    ptt_press_release_ordering pactlW
      (fun s c => ⟨(pactlRun s c).1, (pactlRun s c).2, rfl⟩)
      micSourceApp { nextId := 0, rows := [] } rfl rfl (by decide)⟩

/-! ## Lemmas about `pstrip` and counting -/

theorem pstripL_eq_rdropWhile (l : List Char) :
    pstripL l = List.rdropWhile isPySpace (l.dropWhile isPySpace) := rfl

theorem dropWhile_of_append_eq_self {p : Char → Bool} {X t : List Char}
    (h : List.dropWhile p (X ++ t) = X ++ t) : List.dropWhile p X = X := by
  cases X with
  | nil => rfl
  | cons x xs =>
    rw [List.cons_append, List.dropWhile_cons] at h
    by_cases hp : p x
    · exfalso
      rw [if_pos hp] at h
      have hle := (List.dropWhile_suffix p (l := xs ++ t)).length_le
      rw [h] at hle
      simp at hle
    · rw [List.dropWhile_cons, if_neg hp]

theorem pstripL_idem (l : List Char) : pstripL (pstripL l) = pstripL l := by
  rw [pstripL_eq_rdropWhile l]
  obtain ⟨t, ht⟩ := List.rdropWhile_prefix isPySpace (l.dropWhile isPySpace)
  have hXA : List.dropWhile isPySpace
      (List.rdropWhile isPySpace (l.dropWhile isPySpace)) =
      List.rdropWhile isPySpace (l.dropWhile isPySpace) := by
    apply dropWhile_of_append_eq_self (t := t)
    rw [ht]
    exact List.dropWhile_idempotent isPySpace l
  rw [pstripL_eq_rdropWhile, hXA, List.rdropWhile_idempotent]

theorem pstrip_idem (s : String) : pstrip (pstrip s) = pstrip s := by
  simp only [pstrip]
  exact congrArg String.mk (pstripL_idem s.data)

theorem pyLower_eq_empty {s : String} (h : pyLower s = "") : s = "" := by
  have hd := congrArg String.data h
  simp only [pyLower] at hd
  have : s.data.map Char.toLower = [] := hd
  rcases List.map_eq_nil_iff.mp this with h2
  cases s
  simp_all

theorem countP_set_eq {α : Type} (p : α → Bool) (l : List α) (i : Nat) (x a : α)
    (ha : l[i]? = some a) :
    (l.set i x).countP p + (if p a then 1 else 0) = l.countP p + (if p x then 1 else 0) := by
  induction l generalizing i with
  | nil => simp at ha
  | cons b t ih =>
    cases i with
    | zero =>
      simp only [List.getElem?_cons_zero, Option.some_inj] at ha
      subst ha
      simp only [List.set_cons_zero, List.countP_cons]
      omega
    | succ n =>
      simp only [List.getElem?_cons_succ] at ha
      simp only [List.set_cons_succ, List.countP_cons]
      have := ih n ha
      omega

theorem countP_le_one_unique {α : Type} (p : α → Bool) (l : List α) (h : l.countP p ≤ 1)
    (i j : Nat) (a b : α) (ha : l[i]? = some a) (hb : l[j]? = some b)
    (hpa : p a = true) (hpb : p b = true) : i = j := by
  induction l generalizing i j with
  | nil => simp at ha
  | cons x t ih =>
    rw [List.countP_cons] at h
    cases i with
    | zero =>
      cases j with
      | zero => rfl
      | succ m =>
        exfalso
        simp only [List.getElem?_cons_zero, Option.some_inj] at ha
        subst ha
        rw [hpa, if_pos rfl] at h
        have hz : t.countP p = 0 := by omega
        have hmem : b ∈ t := List.getElem?_mem (by simpa using hb)
        have := List.countP_eq_zero.mp hz b hmem
        simp [hpb] at this
    | succ n =>
      cases j with
      | zero =>
        exfalso
        simp only [List.getElem?_cons_zero, Option.some_inj] at hb
        subst hb
        rw [hpb, if_pos rfl] at h
        have hz : t.countP p = 0 := by omega
        have hmem : a ∈ t := List.getElem?_mem (by simpa using ha)
        have := List.countP_eq_zero.mp hz a hmem
        simp [hpa] at this
      | succ m =>
        simp only [List.getElem?_cons_succ] at ha hb
        have := ih (by omega) n m ha hb
        omega

theorem countP_eq_zero_of_no_get {α : Type} (p : α → Bool) (l : List α)
    (h : ∀ (i : Nat) (x : α), l[i]? = some x → p x = false) : l.countP p = 0 := by
  rw [List.countP_eq_zero]
  intro a hmem
  obtain ⟨i, hi, hget⟩ := List.getElem_of_mem hmem
  have := h i a (by simp [List.getElem?_eq_getElem hi, hget])
  simpa using this

/-! ## Hotkey editing on the clip list (`SoundpadApp.set_selected_hotkey`) -/

/-- A clip record (label, path, hotkey text). -/
structure Clip where
  label : String
  path : String
  hotkey : String
deriving DecidableEq, Repr

/-- The key the collision comparison uses: Python
`hotkey.strip().lower()`. -/
def normHot (h : String) : String := pyLower (pstrip h)

/-- The collision loop of `set_selected_hotkey`
(src/soundpad_app.py:1232-1237): walk the clips with their indices,
skip the selected index, clear the hotkey of the FIRST other clip whose
stripped lower-cased hotkey equals the (stripped) new text lower-cased,
then stop (`break`). -/
def clearFirstCollision (sel : Nat) (typedLower : String) : Nat → List Clip → List Clip
  | _, [] => []
  | idx, c :: rest =>
    if idx = sel then c :: clearFirstCollision sel typedLower (idx + 1) rest
    else if normHot c.hotkey = typedLower then { c with hotkey := "" } :: rest
    else c :: clearFirstCollision sel typedLower (idx + 1) rest

/-- Write `typed` into the selected clip's hotkey
(`clip["hotkey"] = typed`, src/soundpad_app.py:1238). -/
def setHotkeyAt (clips : List Clip) (sel : Nat) (typed : String) : List Clip :=
  match clips[sel]? with
  | none => clips
  | some c => clips.set sel { c with hotkey := typed }

/-- The clip-list transformation of `SoundpadApp.set_selected_hotkey`
(src/soundpad_app.py:1216-1238), given the text entered in the dialog:
`none` models the invalid-hotkey error path (nothing is committed);
empty text clears the selected clip's hotkey; otherwise the first
case-insensitively colliding other clip is cleared and the selected
clip takes the new text. -/
def set_selected_hotkey (clips : List Clip) (sel : Nat) (typed0 : String) :
    Option (List Clip) :=
  let typed := pstrip typed0
  if typed = "" then some (setHotkeyAt clips sel typed)
  else
    match hotkey_to_tk_sequence typed with
    | none => none
    | some _ => some (setHotkeyAt (clearFirstCollision sel (pyLower typed) 0 clips) sel typed)

/-- At most one clip holds any given nonempty chord text, up to the
case-insensitive comparison the code uses. -/
def atMostOnePerChord (clips : List Clip) : Prop :=
  ∀ h : String, h ≠ "" → clips.countP (fun c => normHot c.hotkey = h) ≤ 1

theorem clearFirstCollision_id (sel : Nat) (tl : String) (k : Nat) (l : List Clip)
    (h : ∀ (p : Nat) (c : Clip), l[p]? = some c → k + p ≠ sel → normHot c.hotkey ≠ tl) :
    clearFirstCollision sel tl k l = l := by
  induction l generalizing k with
  | nil => rfl
  | cons a rest ih =>
    simp only [clearFirstCollision]
    by_cases hk : k = sel
    · rw [if_pos hk, ih (k + 1)]
      intro p c hget hne
      exact h (p + 1) c (by simpa using hget) (by omega)
    · rw [if_neg hk, if_neg (h 0 a (by simp) (by omega)), ih (k + 1)]
      intro p c hget hne
      exact h (p + 1) c (by simpa using hget) (by omega)

theorem clearFirstCollision_unique (sel : Nat) (tl : String) (k : Nat) (l : List Clip)
    (j : Nat) (c : Clip)
    (hget : l[j]? = some c) (hne : k + j ≠ sel) (hmatch : normHot c.hotkey = tl)
    (hothers : ∀ (p : Nat) (c' : Clip), l[p]? = some c' → p ≠ j → normHot c'.hotkey ≠ tl) :
    clearFirstCollision sel tl k l = l.set j { c with hotkey := "" } := by
  induction l generalizing k j with
  | nil => simp at hget
  | cons a rest ih =>
    simp only [clearFirstCollision]
    cases j with
    | zero =>
      simp only [List.getElem?_cons_zero, Option.some_inj] at hget
      subst hget
      rw [if_neg (by omega), if_pos hmatch]
      rfl
    | succ m =>
      simp only [List.getElem?_cons_succ] at hget
      by_cases hk : k = sel
      · rw [if_pos hk, List.set_cons_succ]
        congr 1
        apply ih (k + 1) m hget (by omega)
        intro p c' hg hp
        exact hothers (p + 1) c' (by simpa using hg) (by omega)
      · rw [if_neg hk, if_neg (hothers 0 a (by simp) (by omega)), List.set_cons_succ]
        congr 1
        apply ih (k + 1) m hget (by omega)
        intro p c' hg hp
        exact hothers (p + 1) c' (by simpa using hg) (by omega)

theorem normHot_empty : normHot "" = "" := rfl

theorem countP_setHotkey (clips : List Clip) (sel : Nat) (a : Clip) (t : String) (h : String)
    (hga : clips[sel]? = some a) :
    (setHotkeyAt clips sel t).countP (fun c => normHot c.hotkey = h) +
      (if normHot a.hotkey = h then 1 else 0) =
    clips.countP (fun c => normHot c.hotkey = h) + (if normHot t = h then 1 else 0) := by
  unfold setHotkeyAt
  simp only [hga]
  have := countP_set_eq (fun c => decide (normHot c.hotkey = h)) clips sel
    { a with hotkey := t } a hga
  simpa using this

theorem countP_clearAt (clips : List Clip) (j : Nat) (cj : Clip) (h : String)
    (hgj : clips[j]? = some cj) (hne : h ≠ "") :
    (clips.set j { cj with hotkey := "" }).countP (fun c => normHot c.hotkey = h) +
      (if normHot cj.hotkey = h then 1 else 0) =
    clips.countP (fun c => normHot c.hotkey = h) := by
  have := countP_set_eq (fun c => decide (normHot c.hotkey = h)) clips j
    { cj with hotkey := "" } cj hgj
  simpa [normHot_empty, Ne.symm hne] using this

theorem setHotkeyAt_getElem_ne (clips : List Clip) (sel : Nat) (t : String) (j : Nat)
    (hne : j ≠ sel) : (setHotkeyAt clips sel t)[j]? = clips[j]? := by
  unfold setHotkeyAt
  cases hg : clips[sel]? with
  | none => rfl
  | some c => rw [List.getElem?_set_ne (fun hc : sel = j => hne hc.symm)]

/-- C6 (amended): `set_selected_hotkey` compares hotkeys by
case-insensitive stripped TEXT equality (`strip().lower()`), not by
parse-identity.  Under that comparison: whenever the selected clip's
hotkey is set to a text that collides case-insensitively with another
clip's existing hotkey, that other clip's hotkey is cleared, and if at
most one clip held any given nonempty chord text before the edit, the
same holds after it.  (Two chords that parse identically but are
spelled differently — `"Ctrl+M"` vs `"Control+M"` — do NOT trigger the
clearing; see the counterexample.) -/
theorem set_selected_hotkey_exclusive (clips : List Clip) (sel : Nat) (typed0 : String)
    (clips' : List Clip)
    (hsel : sel < clips.length)
    (hinv : atMostOnePerChord clips)
    (hset : set_selected_hotkey clips sel typed0 = some clips') :
    atMostOnePerChord clips' ∧
    (pstrip typed0 ≠ "" → ∀ (j : Nat) (c : Clip), j ≠ sel → clips[j]? = some c →
      normHot c.hotkey = normHot typed0 →
      ∃ c', clips'[j]? = some c' ∧ c'.hotkey = "") := by
  have hgsel : clips[sel]? = some clips[sel] := List.getElem?_eq_getElem hsel
  have hmm : normHot typed0 = pyLower (pstrip typed0) := rfl
  unfold set_selected_hotkey at hset
  by_cases hty : pstrip typed0 = ""
  · rw [if_pos hty, Option.some_inj] at hset
    subst hset
    refine ⟨?_, fun hne => absurd hty hne⟩
    intro h hne
    have hcp := countP_setHotkey clips sel clips[sel] (pstrip typed0) h hgsel
    have hnh : normHot (pstrip typed0) = "" := by rw [hty]; exact normHot_empty
    rw [hnh, if_neg (Ne.symm hne)] at hcp
    have hinvh := hinv h hne
    omega
  · rw [if_neg hty] at hset
    cases htk : hotkey_to_tk_sequence (pstrip typed0) with
    | none => rw [htk] at hset; simp at hset
    | some seq =>
      rw [htk, Option.some_inj] at hset
      subst hset
      have hTne : pyLower (pstrip typed0) ≠ "" := fun hc => hty (pyLower_eq_empty hc)
      have hnormtyped : normHot (pstrip typed0) = pyLower (pstrip typed0) := by
        unfold normHot
        rw [pstrip_idem]
      by_cases hex : ∃ (j : Nat) (c : Clip), clips[j]? = some c ∧ j ≠ sel ∧
          normHot c.hotkey = pyLower (pstrip typed0)
      · obtain ⟨j, cj, hgj, hjne, hmj⟩ := hex
        have hjlen : j < clips.length := (List.getElem?_eq_some.mp hgj).1
        have huniq : ∀ (p : Nat) (c' : Clip), clips[p]? = some c' → p ≠ j →
            normHot c'.hotkey ≠ pyLower (pstrip typed0) := by
          intro p c' hg hp hm
          exact hp (countP_le_one_unique _ clips (hinv _ hTne) p j c' cj hg hgj
            (by simp [hm]) (by simp [hmj]))
        have hCFC : clearFirstCollision sel (pyLower (pstrip typed0)) 0 clips =
            clips.set j { cj with hotkey := "" } :=
          clearFirstCollision_unique sel _ 0 clips j cj hgj (by omega) hmj huniq
        rw [hCFC]
        have hmidsel : (clips.set j { cj with hotkey := "" })[sel]? = some clips[sel] := by
          rw [List.getElem?_set_ne hjne, hgsel]
        have hselj : (sel : Nat) ≠ j := fun hc => hjne hc.symm
        have hmselnot : normHot clips[sel].hotkey ≠ pyLower (pstrip typed0) :=
          huniq sel clips[sel] hgsel hselj
        constructor
        · intro h hne
          have hcp1 := countP_clearAt clips j cj h hgj hne
          have hcp2 := countP_setHotkey (clips.set j { cj with hotkey := "" }) sel clips[sel]
            (pstrip typed0) h hmidsel
          rw [hnormtyped] at hcp2
          have hinvh := hinv h hne
          by_cases hhT : h = pyLower (pstrip typed0)
          · subst hhT
            rw [if_pos hmj] at hcp1
            rw [if_neg hmselnot,
              if_pos (show pyLower (pstrip typed0) = pyLower (pstrip typed0) from rfl)] at hcp2
            omega
          · rw [if_neg (show ¬ (pyLower (pstrip typed0) = h) from fun hc => hhT hc.symm)] at hcp2
            omega
        · intro _ j' c hj'ne hgj' hmatch'
          rw [hmm] at hmatch'
          have hj'j : j' = j := by
            by_contra hcon
            exact huniq j' c hgj' hcon hmatch'
          rw [hj'j]
          refine ⟨{ cj with hotkey := "" }, ?_, rfl⟩
          rw [setHotkeyAt_getElem_ne _ _ _ j hjne, List.getElem?_set_self hjlen]
      · push_neg at hex
        have hCFC : clearFirstCollision sel (pyLower (pstrip typed0)) 0 clips = clips :=
          clearFirstCollision_id sel _ 0 clips (by
            intro p c hg hne
            exact hex p c hg (by omega))
        rw [hCFC]
        constructor
        · intro h hne
          have hcp := countP_setHotkey clips sel clips[sel] (pstrip typed0) h hgsel
          rw [hnormtyped] at hcp
          have hinvh := hinv h hne
          by_cases hhT : h = pyLower (pstrip typed0)
          · subst hhT
            rw [if_pos (show pyLower (pstrip typed0) = pyLower (pstrip typed0) from rfl)] at hcp
            by_cases hms : normHot clips[sel].hotkey = pyLower (pstrip typed0)
            · rw [if_pos hms] at hcp
              omega
            · rw [if_neg hms] at hcp
              have hz : clips.countP
                  (fun c => normHot c.hotkey = pyLower (pstrip typed0)) = 0 := by
                apply countP_eq_zero_of_no_get
                intro i x hg
                by_cases hi : i = sel
                · subst hi
                  rw [hgsel, Option.some_inj] at hg
                  subst hg
                  simp [hms]
                · simpa using hex i x hg hi
              omega
          · rw [if_neg (show ¬ (pyLower (pstrip typed0) = h) from fun hc => hhT hc.symm)] at hcp
            omega
        · intro _ j' c hj'ne hgj' hmatch'
          rw [hmm] at hmatch'
          exact absurd hmatch' (hex j' c hgj' hj'ne)

/-- C6 counterexample: editing clip 1's hotkey to `"Control+M"` while
clip 0 holds `"Ctrl+M"` — two chords that parse identically — does NOT
clear clip 0's hotkey (the collision comparison is textual,
`strip().lower()`, and `"ctrl+m" ≠ "control+m"`), so afterwards two
clips hold nonempty chords that parse to the same modifier set and base
key, refuting the claim as stated. -/
theorem set_selected_hotkey_counterexample :
    set_selected_hotkey
        [{ label := "a", path := "/a", hotkey := "Ctrl+M" },
         { label := "b", path := "/b", hotkey := "" }] 1 "Control+M" =
      some [{ label := "a", path := "/a", hotkey := "Ctrl+M" },
            { label := "b", path := "/b", hotkey := "Control+M" }] ∧
    hotkey_to_parts "Ctrl+M" = hotkey_to_parts "Control+M" ∧
    hotkey_to_parts "Ctrl+M" = some ({ control := true }, "m") := by
  refine ⟨?_, ?_, ?_⟩ <;> decide

/-- C6 witness: the amended theorem applied to a concrete
case-insensitive text collision (`"alt+1"` against an existing
`"Alt+1"`), which does clear the other clip. -/
theorem set_selected_hotkey_exclusive_witness :
    (1 < ([{ label := "a", path := "/a", hotkey := "Alt+1" },
           { label := "b", path := "/b", hotkey := "" }] : List Clip).length) ∧
    atMostOnePerChord [{ label := "a", path := "/a", hotkey := "Alt+1" },
                       { label := "b", path := "/b", hotkey := "" }] ∧
    set_selected_hotkey [{ label := "a", path := "/a", hotkey := "Alt+1" },
                         { label := "b", path := "/b", hotkey := "" }] 1 "alt+1" =
      some [{ label := "a", path := "/a", hotkey := "" },
            { label := "b", path := "/b", hotkey := "alt+1" }] ∧
    (atMostOnePerChord [{ label := "a", path := "/a", hotkey := "" },
                        { label := "b", path := "/b", hotkey := "alt+1" }] ∧
     (pstrip "alt+1" ≠ "" → ∀ (j : Nat) (c : Clip), j ≠ 1 →
        ([{ label := "a", path := "/a", hotkey := "Alt+1" },
          { label := "b", path := "/b", hotkey := "" }] : List Clip)[j]? = some c →
        normHot c.hotkey = normHot "alt+1" →
        ∃ c', ([{ label := "a", path := "/a", hotkey := "" },
                { label := "b", path := "/b", hotkey := "alt+1" }] : List Clip)[j]? = some c' ∧
          c'.hotkey = "")) := by
  have hinv : atMostOnePerChord [{ label := "a", path := "/a", hotkey := "Alt+1" },
      { label := "b", path := "/b", hotkey := "" }] := by
    intro h hne
    by_cases h1 : normHot "Alt+1" = h
    · simp [List.countP_cons, h1, normHot_empty, Ne.symm hne]
    · simp [List.countP_cons, h1, normHot_empty, Ne.symm hne]
  refine ⟨by decide, hinv, by decide, ?_⟩
  exact set_selected_hotkey_exclusive _ 1 "alt+1" _ (by decide) hinv (by decide)

/-! ## Character-level facts for the chord codec (C7) -/

theorem isPySpace_false_of_gt {c : Char} (h : 32 < c.toNat) : isPySpace c = false := by
  simp [isPySpace]
  omega

/-- ASCII lower-casing never turns a character into or out of whitespace. -/
theorem toLower_pyspace (c : Char) : isPySpace (Char.toLower c) = isPySpace c := by
  by_cases h : c.toNat ≥ 65 ∧ c.toNat ≤ 90
  · have hv : (c.toNat + 32).isValidChar := by
      left; omega
    have ht : (Char.ofNat (c.toNat + 32)).toNat = c.toNat + 32 := toNat_ofNat_valid _ hv
    simp only [Char.toLower, if_pos h]
    rw [isPySpace_false_of_gt (by omega), isPySpace_false_of_gt (by omega)]
  · simp only [Char.toLower, if_neg h]

/-- Lower-casing never produces a `+` from a non-`+` character. -/
theorem toLower_plus (c : Char) (h : Char.toLower c = '+') : c = '+' := by
  by_cases hc : c.toNat ≥ 65 ∧ c.toNat ≤ 90
  · exfalso
    have hv : (c.toNat + 32).isValidChar := by left; omega
    have ht : (Char.ofNat (c.toNat + 32)).toNat = c.toNat + 32 := toNat_ofNat_valid _ hv
    simp only [Char.toLower, if_pos hc] at h
    have h2 := congrArg Char.toNat h
    rw [ht] at h2
    have h3 : ('+').toNat = 43 := rfl
    omega
  · simpa only [Char.toLower, if_neg hc] using h

theorem toLower_idem (c : Char) : Char.toLower (Char.toLower c) = Char.toLower c := by
  by_cases h : c.toNat ≥ 65 ∧ c.toNat ≤ 90
  · have hv : (c.toNat + 32).isValidChar := by left; omega
    have ht : (Char.ofNat (c.toNat + 32)).toNat = c.toNat + 32 := toNat_ofNat_valid _ hv
    conv_lhs => rw [Char.toLower, Char.toLower]
    rw [if_pos h, if_neg (by rw [ht]; omega)]
    rw [Char.toLower, if_pos h]
  · simp only [Char.toLower, if_neg h]

/-! ## List-level helpers for the chord codec -/

/-- No piece produced by `splitOnP p` contains an element satisfying `p`. -/
theorem mem_splitOnP_not {α : Type} (p : α → Bool) (l : List α) :
    ∀ piece ∈ l.splitOnP p, ∀ a ∈ piece, p a = false := by
  induction l with
  | nil =>
    intro piece hp a ha
    rw [List.splitOnP_nil] at hp
    simp only [List.mem_singleton] at hp
    subst hp
    simp at ha
  | cons x xs ih =>
    intro piece hp a ha
    rw [List.splitOnP_cons] at hp
    by_cases hx : p x
    · rw [if_pos hx] at hp
      rcases List.mem_cons.mp hp with h | h
      · subst h; simp at ha
      · exact ih piece h a ha
    · rw [if_neg hx] at hp
      rcases h' : xs.splitOnP p with _ | ⟨hd, tl⟩
      · exact absurd h' (List.splitOnP_ne_nil p xs)
      · rw [h'] at hp
        simp only [List.modifyHead] at hp
        rcases List.mem_cons.mp hp with h | h
        · subst h
          rcases List.mem_cons.mp ha with h2 | h2
          · subst h2; exact Bool.eq_false_iff.mpr hx
          · exact ih hd (by rw [h']; exact List.mem_cons_self hd tl) a h2
        · exact ih piece (by rw [h']; exact List.mem_cons_of_mem _ h) a ha

/-- Stripping only removes characters: membership is preserved. -/
theorem mem_pstripL {a : Char} {l : List Char} (h : a ∈ pstripL l) : a ∈ l := by
  rw [pstripL_eq_rdropWhile] at h
  exact (List.dropWhile_suffix isPySpace).subset
    ((List.rdropWhile_prefix isPySpace _).subset h)

theorem string_data_mk (l : List Char) : (String.mk l).data = l := rfl

/-- A strip-fixed list is fixed by both one-sided drops. -/
theorem pstripL_self_parts {l : List Char} (h : pstripL l = l) :
    l.dropWhile isPySpace = l ∧ l.rdropWhile isPySpace = l := by
  rw [pstripL_eq_rdropWhile] at h
  have h1 : (List.rdropWhile isPySpace (l.dropWhile isPySpace)).length ≤
      (l.dropWhile isPySpace).length :=
    (List.rdropWhile_prefix isPySpace _).length_le
  have h2 : (l.dropWhile isPySpace).length ≤ l.length :=
    (List.dropWhile_suffix isPySpace).length_le
  have h3 : l.length ≤ (l.dropWhile isPySpace).length := by
    conv_lhs => rw [← h]
    exact h1
  have hdw : l.dropWhile isPySpace = l :=
    (List.dropWhile_suffix isPySpace).eq_of_length (Nat.le_antisymm h2 h3)
  refine ⟨hdw, ?_⟩
  rw [hdw] at h
  exact h

/-- A list whose first and last characters are not whitespace is strip-fixed. -/
theorem pstripL_eq_self_of {l : List Char}
    (h1 : ∀ c ∈ l.head?, isPySpace c = false)
    (h2 : ∀ c ∈ l.getLast?, isPySpace c = false) : pstripL l = l := by
  rw [pstripL_eq_rdropWhile]
  have hdw : l.dropWhile isPySpace = l := by
    cases l with
    | nil => rfl
    | cons a t =>
      rw [List.dropWhile_cons, if_neg]
      rw [h1 a (by simp)]
      simp
  rw [hdw]
  apply List.rdropWhile_eq_self_iff.mpr
  intro hl
  rw [h2 (l.getLast hl) (by rw [List.getLast?_eq_getLast l hl]; rfl)]
  simp

/-- First and last characters of a strip-fixed string are not whitespace. -/
theorem pstrip_fixed_ends {s : String} (h : pstrip s = s) :
    (∀ c ∈ s.data.head?, isPySpace c = false) ∧
    (∀ c ∈ s.data.getLast?, isPySpace c = false) := by
  have hl : pstripL s.data = s.data := by
    have := congrArg String.data h
    simpa [pstrip, string_data_mk] using this
  obtain ⟨hdw, hrd⟩ := pstripL_self_parts hl
  constructor
  · intro c hc
    cases hd : s.data with
    | nil => rw [hd] at hc; simp at hc
    | cons a t =>
      rw [hd] at hc
      simp only [List.head?_cons, Option.mem_some_iff] at hc
      rw [hd, List.dropWhile_cons] at hdw
      rw [← hc]
      by_cases hp : isPySpace a
      · exfalso
        rw [if_pos hp] at hdw
        have hle := (List.dropWhile_suffix isPySpace (l := t)).length_le
        rw [hdw] at hle
        simp at hle
      · exact Bool.eq_false_iff.mpr hp
  · intro c hc
    have hne : s.data ≠ [] := by
      intro hnil
      rw [hnil] at hc
      simp at hc
    rw [List.getLast?_eq_getLast s.data hne, Option.mem_some_iff] at hc
    subst hc
    exact Bool.eq_false_iff.mpr (List.rdropWhile_eq_self_iff.mp hrd hne)

/-- Stripping commutes with ASCII lower-casing on character lists. -/
theorem pstripL_map_toLower (l : List Char) :
    pstripL (l.map Char.toLower) = (pstripL l).map Char.toLower := by
  have hfun : (isPySpace ∘ Char.toLower) = isPySpace := funext toLower_pyspace
  simp only [pstripL, List.dropWhile_map, hfun, ← List.map_reverse]

/-- `strip` commutes with `lower` on strings. -/
theorem pstrip_pyLower (s : String) : pstrip (pyLower s) = pyLower (pstrip s) := by
  simp only [pstrip, pyLower, string_data_mk, pstripL_map_toLower]

theorem pyLower_idem (s : String) : pyLower (pyLower s) = pyLower s := by
  simp only [pyLower, string_data_mk, List.map_map]
  exact congrArg String.mk (List.map_congr_left (fun a _ => toLower_idem a))

/-! ## Serialization structure (C7) -/

/-- The canonical modifier tokens emitted by `serialize_chord`. -/
def modToks (m : Mods) : List String :=
  (if m.control then ["Ctrl"] else []) ++
  (if m.alt then ["Alt"] else []) ++
  (if m.shift then ["Shift"] else []) ++
  (if m.super then ["Super"] else [])

theorem serialize_eq_join (m : Mods) (k : String) :
    serialize_chord m k = joinSep "+" (modToks m ++ [k]) := by
  simp only [serialize_chord, modToks, List.append_assoc]

theorem modToks_mem (m : Mods) :
    ∀ t ∈ modToks m, t = "Ctrl" ∨ t = "Alt" ∨ t = "Shift" ∨ t = "Super" := by
  rcases m with ⟨c, a, s, u⟩
  cases c <;> cases a <;> cases s <;> cases u <;> intro t ht <;>
    simp only [modToks, List.append_nil, List.nil_append, List.append_assoc, if_true, if_false,
      List.mem_append, List.mem_singleton, List.not_mem_nil] at ht <;> tauto

/-- The modifier loop accepts the canonical serialization of any modifier set
and reconstructs exactly that set. -/
theorem addMods_modToks (m : Mods) : addMods {} (modToks m) = some m := by
  rcases m with ⟨c, a, s, u⟩
  cases c <;> cases a <;> cases s <;> cases u <;> decide

theorem joinSep_cons (sep t : String) (ts : List String) (h : ts ≠ []) :
    joinSep sep (t :: ts) = t ++ sep ++ joinSep sep ts := by
  cases ts with
  | nil => exact absurd rfl h
  | cons a l => rfl

theorem intercalate_cons_cons {α : Type} (sep a b : List α) (l : List (List α)) :
    List.intercalate sep (a :: b :: l) = a ++ sep ++ List.intercalate sep (b :: l) := by
  simp [List.intercalate, List.intersperse_cons_cons, List.append_assoc]

/-- The characters of a `+`-join are the `+`-intercalation of the tokens'
characters. -/
theorem data_joinSep_plus (ts : List String) :
    (joinSep "+" ts).data = List.intercalate ['+'] (ts.map String.data) := by
  induction ts with
  | nil => rfl
  | cons t ts ih =>
    cases ts with
    | nil => simp [joinSep, List.intercalate]
    | cons a l =>
      rw [joinSep_cons _ _ _ (by simp), List.map_cons, List.map_cons, intercalate_cons_cons,
        String.data_append, String.data_append, ← List.map_cons, ← ih]

theorem joinSep_concat_ne_empty (ts : List String) (k : String) (hk : k ≠ "") :
    joinSep "+" (ts ++ [k]) ≠ "" := by
  induction ts with
  | nil => exact hk
  | cons t ts ih =>
    rw [List.cons_append, joinSep_cons _ _ _ (by simp)]
    intro h
    have hd := congrArg String.data h
    rw [String.data_append, String.data_append] at hd
    simp at hd

/-- The last character of a `+`-join ending in a nonempty token `k` is the
last character of `k`. -/
theorem data_join_getLast (ts : List String) (k : String) (hk : k ≠ "") :
    (joinSep "+" (ts ++ [k])).data.getLast? = k.data.getLast? := by
  induction ts with
  | nil => rfl
  | cons t ts ih =>
    rw [List.cons_append, joinSep_cons _ _ _ (by simp), String.data_append,
      String.data_append, List.append_assoc, List.getLast?_append]
    rw [List.getLast?_append, ih]
    have hne : k.data ≠ [] := by
      intro hnil
      apply hk
      cases k
      simp_all
    cases hl : k.data.getLast? with
    | none => exact absurd (List.getLast?_eq_none_iff.mp hl) hne
    | some c => rfl

theorem string_mk_data (s : String) : String.mk s.data = s := rfl

/-- Splitting the `+`-join of `+`-free tokens recovers the tokens. -/
theorem splitOnCh_join (ts : List String) (hts : ts ≠ [])
    (hne : ∀ t ∈ ts, '+' ∉ t.data) :
    splitOnCh '+' (joinSep "+" ts) = ts := by
  unfold splitOnCh
  rw [data_joinSep_plus]
  rw [List.splitOn_intercalate _ '+' ?h1 ?h2]
  case h1 =>
    intro l hl
    rcases List.mem_map.mp hl with ⟨t, ht, rfl⟩
    exact hne t ht
  case h2 =>
    simpa using hts
  rw [List.map_map]
  exact (List.map_congr_left (fun a _ => string_mk_data a)).trans (List.map_id ts)

theorem forall_mem_some_nospace {c0 : Char} (h : isPySpace c0 = false) :
    ∀ c ∈ (some c0), isPySpace c = false := by
  intro c hc
  rw [Option.mem_def, Option.some.injEq] at hc
  rw [← hc]
  exact h

/-- Serializing a nonempty strip-fixed key with any modifier set yields a
strip-fixed chord string. -/
theorem pstrip_serialize (m : Mods) (k : String) (hk : k ≠ "") (hks : pstrip k = k) :
    pstrip (serialize_chord m k) = serialize_chord m k := by
  rw [serialize_eq_join]
  cases hmt : modToks m with
  | nil =>
    rw [List.nil_append]
    exact hks
  | cons t rest =>
    have htmem : t ∈ modToks m := by rw [hmt]; exact List.mem_cons_self t rest
    have hhead : ∀ c ∈ (joinSep "+" ((t :: rest) ++ [k])).data.head?, isPySpace c = false := by
      rw [List.cons_append, joinSep_cons "+" t (rest ++ [k]) (by simp), String.data_append,
        String.data_append, List.append_assoc, List.head?_append]
      rcases modToks_mem m t htmem with rfl | rfl | rfl | rfl <;>
        exact forall_mem_some_nospace (by decide)
    have hlast2 : ∀ c ∈ (joinSep "+" ((t :: rest) ++ [k])).data.getLast?, isPySpace c = false := by
      rw [data_join_getLast _ _ hk]
      exact (pstrip_fixed_ends hks).2
    show String.mk (pstripL (joinSep "+" ((t :: rest) ++ [k])).data) = _
    rw [pstripL_eq_self_of hhead hlast2]

/-- Structural facts about the base key produced by a successful parse:
it is nonempty, strip-fixed, lower-case-fixed, and contains no `+`. -/
theorem hotkey_to_parts_key_props {s : String} {m : Mods} {k : String}
    (h : hotkey_to_parts s = some (m, k)) :
    k ≠ "" ∧ pstrip k = k ∧ pyLower k = k ∧ '+' ∉ k.data := by
  simp only [hotkey_to_parts] at h
  split at h
  · exact absurd h (by simp)
  split at h
  · exact absurd h (by simp)
  next last hlast =>
  split at h
  · exact absurd h (by simp)
  next mods hmods =>
  rw [Option.some.injEq, Prod.mk.injEq] at h
  have hk : k = pyLower last := h.2.symm
  have hmem := List.mem_of_getLast?_eq_some hlast
  obtain ⟨hmem2, hpne⟩ := List.mem_filter.mp hmem
  have hlastne : last ≠ "" := of_decide_eq_true hpne
  obtain ⟨q, hq, hpq⟩ := List.mem_map.mp hmem2
  unfold splitOnCh at hq
  obtain ⟨piece, hpiece, hmkq⟩ := List.mem_map.mp hq
  unfold List.splitOn at hpiece
  have hplus := mem_splitOnP_not (· == '+') _ piece hpiece
  have hld : last.data = pstripL piece := by rw [← hpq, ← hmkq]; rfl
  have hlp : '+' ∉ last.data := by
    intro hin
    rw [hld] at hin
    have := hplus '+' (mem_pstripL hin)
    simp at this
  have hlstrip : pstrip last = last := by rw [← hpq, pstrip_idem]
  refine ⟨?_, ?_, ?_, ?_⟩
  · intro he
    exact hlastne (pyLower_eq_empty (hk ▸ he))
  · rw [hk, pstrip_pyLower, hlstrip]
  · rw [hk, pyLower_idem]
  · intro hin
    rw [hk] at hin
    obtain ⟨c, hcmem, hc⟩ := List.mem_map.mp hin
    exact hlp (toLower_plus c hc ▸ hcmem)

/-- C7 — Chord parse structure and round-trip: for every chord string the
codec accepts, parsing (`_hotkey_to_parts`) then serializing
(`serialize_chord`, modelled from the spec's canonical-order join) yields a
chord string that re-parses to the structurally identical modifier-set plus
base-key pair; the parsed structure is independent of modifier token order
("Alt+Ctrl+M" and "Ctrl+Alt+M" parse identically); and "Shift+Alt+3"
parses to the modifier set \x7bshift, alt\x7d with base key "3". -/
theorem chord_round_trip :
    (∀ (s : String) (m : Mods) (k : String), hotkey_to_parts s = some (m, k) →
      hotkey_to_parts (serialize_chord m k) = some (m, k)) ∧
    hotkey_to_parts "Alt+Ctrl+M" = hotkey_to_parts "Ctrl+Alt+M" ∧
    hotkey_to_parts "Shift+Alt+3" = some ({ shift := true, alt := true }, "3") := by
  refine ⟨?_, by decide, by decide⟩
  intro s m k h
  obtain ⟨hk, hks, hkl, hkp⟩ := hotkey_to_parts_key_props h
  have htoks : ∀ t ∈ modToks m ++ [k], pstrip t = t ∧ t ≠ "" ∧ '+' ∉ t.data := by
    intro t ht
    rcases List.mem_append.mp ht with hmt | hker
    · rcases modToks_mem m t hmt with rfl | rfl | rfl | rfl <;>
        exact ⟨by decide, by decide, by decide⟩
    · rw [List.mem_singleton] at hker
      subst hker
      exact ⟨hks, hk, hkp⟩
  have hstrip : pstrip (serialize_chord m k) = serialize_chord m k :=
    pstrip_serialize m k hk hks
  have hserne : ¬ (serialize_chord m k = "") := by
    rw [serialize_eq_join]
    exact joinSep_concat_ne_empty (modToks m) k hk
  have hsplit : splitOnCh '+' (serialize_chord m k) = modToks m ++ [k] := by
    rw [serialize_eq_join]
    exact splitOnCh_join _ (by simp) (fun t ht => (htoks t ht).2.2)
  have hmapid : (modToks m ++ [k]).map pstrip = modToks m ++ [k] :=
    (List.map_congr_left (fun a ha => (htoks a ha).1)).trans (List.map_id _)
  have hfilterid : (modToks m ++ [k]).filter (fun p => p ≠ "") = modToks m ++ [k] :=
    List.filter_eq_self.mpr (fun a ha => decide_eq_true ((htoks a ha).2.1))
  simp only [hotkey_to_parts]
  rw [hstrip, if_neg hserne, hsplit, hmapid, hfilterid]
  simp only [List.getLast?_concat, List.dropLast_concat, addMods_modToks, hkl]

theorem chord_round_trip_witness :
    hotkey_to_parts "Ctrl+Alt+M" = some ({ control := true, alt := true }, "m") ∧
    hotkey_to_parts (serialize_chord { control := true, alt := true } "m") =
      some ({ control := true, alt := true }, "m") :=
  ⟨by decide, chord_round_trip.1 "Ctrl+Alt+M" _ _ (by decide)⟩
